import Mathlib

/-!
# ELEC2856 DSP equaliser: a shallow embedding of `src/main.cpp`

The program is a fixed-rate sample loop (`main`), a per-sample step
(`process_eq`), a slow control path (`update_controls`, `scale`) and four
interrupt handlers that set two mode flags.

Conventions of the embedding.
* `float`/`double` values are rationals (`ℚ`).  Arithmetic on them is exact,
  except in `update_controls`, where the `float` that `scale` returns is
  truncated to an `int`: truncation is not continuous, so the rounding of every
  operation matters there and is a parameter (`Float32`, covering both a fused
  and an unfused multiply-add).  The other truncation, of
  `1000000 / sampleFreq` at startup, gives 20 under every such rounding
  (`sample_period_any_rounding`).
* `int` and the 64-bit microsecond count of the timer are `Int`; division and
  remainder are the truncating C++ ones (`Int.tdiv`, `Int.tmod`), conversion of
  a real to `int` truncates toward zero (`toInt`).  Along every run from
  `main_entry` the tick counter stays in `[0, sampleFreq_actual)` (`Inv.ticks`),
  so no `int` operation of the loop leaves the 32-bit range; and the boundary
  `us_old` is only ever advanced to a value not above the current reading, so
  for timer readings in `[0, 2^63)` no 64-bit operation overflows either.
* The three filter classes come from `LowPass.h`, `HighPass.h`, `BandPass.h`,
  which are not among the sources; they are a parameter (`FilterImpl`).
* Peripheral reads (`Timer`, `AnalogIn`, `InterruptIn`) are inputs of the
  functions that perform them; peripheral writes (`AnalogOut`, `DigitalOut`)
  are fields of the state.
-/

namespace DspEq

/-! ## Constants (`#define`s, lines 20-24) -/

def LOW_FREQ_MIN : ℚ := 20
def LOW_FREQ_MAX : ℚ := 300
def HIGH_FREQ_MIN : ℚ := 2000
def HIGH_FREQ_MAX : ℚ := 10000

/-- The macro `OFFSET` is the token sequence `1/3.3`; at both of its uses
(`x - 1/3.3`, `y + 1/3.3`) it parses as the quotient `1 / 3.3`. -/
def OFFSET : ℚ := 1 / (33 / 10)

/-- Conversion of a real to `int` as C++ does it: the fractional part is dropped
(truncation toward zero). -/
def toInt (q : ℚ) : Int := if 0 ≤ q then ⌊q⌋ else ⌈q⌉

/-! ## Single-precision arithmetic (parameter) -/

/-- What is used of the target's `float` arithmetic.  `rnd` rounds a real to
single precision; it is monotone, and exact on every `m / 2^k` with
`-2^24 ≤ m ≤ 2^24` and `k ≤ 24` (all of which are single-precision values).  `fma`
tells whether the compiler contracts `a * b + c` into one fused operation,
rounded once, or keeps two operations, each rounded. -/
structure Float32 where
  rnd : ℚ → ℚ
  fma : Bool
  mono : ∀ x y : ℚ, x ≤ y → rnd x ≤ rnd y
  exact : ∀ (m : Int) (k : Nat), -2 ^ 24 ≤ m → m ≤ 2 ^ 24 → k ≤ 24 →
    rnd ((m : ℚ) / 2 ^ k) = (m : ℚ) / 2 ^ k

/-- Arithmetic without rounding error, an instance of `Float32` at which results
stated for every `Float32` can be read off concretely. -/
def Float32.ideal : Float32 where
  rnd := fun x => x
  fma := false
  mono := fun _ _ h => h
  exact := fun _ _ _ _ _ => rfl

/-! ## The filters (parameter) -/

/-- The interface `main.cpp` uses of the classes `LowPass`, `HighPass` and
`BandPass`: a constructor, `update`, `set_gain` and `set_cutoff`, each acting on
the object's own state only. -/
structure FilterImpl where
  LowPass : Type
  HighPass : Type
  BandPass : Type
  lp_new : ℚ → ℚ → ℚ → LowPass
  hp_new : ℚ → ℚ → ℚ → HighPass
  bp_new : ℚ → ℚ → ℚ → ℚ → BandPass
  lp_update : LowPass → ℚ → ℚ × LowPass
  hp_update : HighPass → ℚ → ℚ × HighPass
  bp_update : BandPass → ℚ → ℚ × BandPass
  lp_set_gain : LowPass → ℚ → LowPass
  hp_set_gain : HighPass → ℚ → HighPass
  bp_set_gain : BandPass → ℚ → BandPass
  lp_set_cutoff : LowPass → ℚ → LowPass
  hp_set_cutoff : HighPass → ℚ → HighPass
  bp_set_cutoff : BandPass → ℚ → ℚ → BandPass

/-- State of a recording one-cutoff filter. -/
structure RecFilter where
  ctor : ℚ × ℚ × ℚ
  gain : Option ℚ
  cutoff : Option ℚ
  fed : List ℚ
  deriving DecidableEq

/-- State of a recording two-cutoff filter. -/
structure RecBand where
  ctor : ℚ × ℚ × ℚ × ℚ
  gain : Option ℚ
  cutoff : Option (ℚ × ℚ)
  fed : List ℚ
  deriving DecidableEq

/-- Modelled from the spec: the filter classes of `LowPass.h`, `HighPass.h` and
`BandPass.h` are missing from the sources.  This instance is a record of each
filter's constructor arguments, of the gain and cutoff last applied to it
(`none` until `set_gain` / `set_cutoff` is called) and of the samples fed to
`update`, which answers its input unchanged.  It serves to instantiate, at
concrete inputs, results that are stated for every `FilterImpl`. -/
def recFilters : FilterImpl where
  LowPass := RecFilter
  HighPass := RecFilter
  BandPass := RecBand
  lp_new := fun c fs q => ⟨(c, fs, q), none, none, []⟩
  hp_new := fun c fs q => ⟨(c, fs, q), none, none, []⟩
  bp_new := fun lo hi fs q => ⟨(lo, hi, fs, q), none, none, []⟩
  lp_update := fun s x => (x, { s with fed := s.fed ++ [x] })
  hp_update := fun s x => (x, { s with fed := s.fed ++ [x] })
  bp_update := fun s x => (x, { s with fed := s.fed ++ [x] })
  lp_set_gain := fun s g => { s with gain := some g }
  hp_set_gain := fun s g => { s with gain := some g }
  bp_set_gain := fun s g => { s with gain := some g }
  lp_set_cutoff := fun s c => { s with cutoff := some c }
  hp_set_cutoff := fun s c => { s with cutoff := some c }
  bp_set_cutoff := fun s lo hi => { s with cutoff := some (lo, hi) }

/-! ## Global state (lines 26-50) -/

/-- The global variables of `main.cpp` that the program reads or writes,
together with the two output peripherals (`outputSig`: the value last written
to the DAC; `indicator`: the level of the LED pin). -/
structure Globals (F : FilterImpl) where
  g_lowModeFlag : Int
  g_highModeFlag : Int
  input : ℚ
  output : ℚ
  sampleFreq : ℚ
  sampleInterval_us : Int
  sampleFreq_actual : Int
  controlFreq : Int
  lpFilt : F.LowPass
  hpFilt : F.HighPass
  bpFilt : F.BandPass
  outputSig : ℚ
  indicator : Bool

/-- What the environment supplies when the program starts: the levels of the two
mode switches, the first timer reading, and the initial levels of the two output
pins. -/
structure Boot where
  lowModeIn : Int
  highModeIn : Int
  us0 : Int
  outputSig0 : ℚ
  indicator0 : Bool

/-- The five potentiometer readings `update_controls` takes. -/
structure Controls where
  lowFrequency_in : ℚ
  highFrequency_in : ℚ
  lowAmplitude_in : ℚ
  highAmplitude_in : ℚ
  midAmplitude_in : ℚ

/-- What one pass of the `while` loop reads: the timer, and (used only when the
pass processes a sample) the input signal and the controls. -/
structure Readings where
  us : Int
  inputSig : ℚ
  controls : Controls

/-- Initialisers of the globals, in order of definition (lines 38-50). -/
def startup (F : FilterImpl) (b : Boot) : Globals F :=
  let sampleFreq : ℚ := 48000
  let sampleInterval_us : Int := toInt (1000000 / sampleFreq)
  let sampleFreq_actual : Int := Int.tdiv 1000000 sampleInterval_us
  { g_lowModeFlag := 0
    g_highModeFlag := 0
    input := 0
    output := 0
    sampleFreq := sampleFreq
    sampleInterval_us := sampleInterval_us
    sampleFreq_actual := sampleFreq_actual
    controlFreq := 10000
    lpFilt := F.lp_new 50 sampleFreq_actual 1
    hpFilt := F.hp_new 150 sampleFreq_actual 1
    bpFilt := F.bp_new 50 150 sampleFreq_actual 1
    outputSig := b.outputSig0
    indicator := b.indicator0 }

/-! ## `scale` (lines 114-117) -/

/-- The function `scale`; its first parameter is called `in` in the source. -/
def scale (inp in_min in_max out_min out_max : ℚ) : ℚ :=
  let in_percent := (inp - in_min) / (in_max - in_min)
  (in_percent * (out_max - out_min)) + out_min

/-- The function `scale` as the target evaluates it: every operation of lines
115-116 rounded to single precision, the final multiply-add fused or not. -/
def scale_f32 (A : Float32) (inp in_min in_max out_min out_max : ℚ) : ℚ :=
  let in_percent := A.rnd (A.rnd (inp - in_min) / A.rnd (in_max - in_min))
  if A.fma then A.rnd (in_percent * A.rnd (out_max - out_min) + out_min)
  else A.rnd (A.rnd (in_percent * A.rnd (out_max - out_min)) + out_min)

/-! ## Interrupt handlers (lines 119-131) -/

def lowMode_isr_rise {F : FilterImpl} (g : Globals F) : Globals F :=
  { g with g_lowModeFlag := 1 }

def lowMode_isr_fall {F : FilterImpl} (g : Globals F) : Globals F :=
  { g with g_lowModeFlag := 0 }

def highMode_isr_rise {F : FilterImpl} (g : Globals F) : Globals F :=
  { g with g_highModeFlag := 1 }

def highMode_isr_fall {F : FilterImpl} (g : Globals F) : Globals F :=
  { g with g_highModeFlag := 0 }

/-- An edge on one of the two mode switches. -/
inductive Edge where
  | lowRise
  | lowFall
  | highRise
  | highFall
  deriving DecidableEq, Repr

/-- The handler bound to each edge by lines 62-65. -/
def fire {F : FilterImpl} (g : Globals F) : Edge → Globals F
  | Edge.lowRise => lowMode_isr_rise g
  | Edge.lowFall => lowMode_isr_fall g
  | Edge.highRise => highMode_isr_rise g
  | Edge.highFall => highMode_isr_fall g

/-- The handlers run for a sequence of edges, in order. -/
def fireAll {F : FilterImpl} (g : Globals F) (es : List Edge) : Globals F :=
  es.foldl fire g

/-! ## `process_eq` (lines 93-99) -/

/-- One call of `process_eq`, `r` being the value `inputSig.read()` returns. -/
def process_eq {F : FilterImpl} (g : Globals F) (r : ℚ) : Globals F :=
  let input := r - OFFSET
  let hp := F.hp_update g.hpFilt input
  let lp := F.lp_update g.lpFilt input
  let bp := F.bp_update g.bpFilt input
  let output := (hp.1 * g.g_highModeFlag) + (lp.1 * g.g_lowModeFlag) + bp.1
  { g with
    input := input
    output := output
    hpFilt := hp.2
    lpFilt := lp.2
    bpFilt := bp.2
    outputSig := output + OFFSET }

/-! ## `update_controls` (lines 101-112) -/

/-- One call of `update_controls`, `c` being the five control readings.  The
two calls of `scale` return a `float`, which the initialisation of the `int`
variables `lowCut` and `highCut` truncates. -/
def update_controls {F : FilterImpl} (A : Float32) (g : Globals F) (c : Controls) :
    Globals F :=
  let lowCut : Int := toInt (scale_f32 A c.lowFrequency_in 0 1 LOW_FREQ_MIN LOW_FREQ_MAX)
  let highCut : Int :=
    toInt (scale_f32 A c.highFrequency_in 0 1 HIGH_FREQ_MIN HIGH_FREQ_MAX)
  let lp1 := F.lp_set_gain g.lpFilt c.lowAmplitude_in
  let hp1 := F.hp_set_gain g.hpFilt c.highAmplitude_in
  let bp1 := F.bp_set_gain g.bpFilt c.midAmplitude_in
  let lp2 := F.lp_set_cutoff lp1 lowCut
  let hp2 := F.hp_set_cutoff hp1 highCut
  let bp2 := F.bp_set_cutoff bp1 lowCut highCut
  { g with lpFilt := lp2, hpFilt := hp2, bpFilt := bp2 }

/-! ## `main` (lines 60-91) -/

/-- The state of `main`: the globals, the locals `ticks`, `us`, `us_old`, and
three counters that are not program variables but count the calls made so far
(`n_process_eq`, `n_update_controls`) and the indicator toggles (`n_toggle`). -/
structure MainState (F : FilterImpl) where
  g : Globals F
  ticks : Int
  us : Int
  us_old : Int
  n_process_eq : Nat
  n_toggle : Nat
  n_update_controls : Nat

/-- Lines 62-72: the state on entry to the `while` loop. -/
def main_entry (F : FilterImpl) (b : Boot) : MainState F :=
  let g0 := startup F b
  let g1 := { g0 with g_highModeFlag := b.highModeIn }
  let g2 := { g1 with g_lowModeFlag := b.lowModeIn }
  { g := g2
    ticks := 0
    us := b.us0
    us_old := b.us0
    n_process_eq := 0
    n_toggle := 0
    n_update_controls := 0 }

/-- Lines 77-88: the body of the `if`, run when a sample period has elapsed. -/
def sample_period {F : FilterImpl} (A : Float32) (s : MainState F) (r : Readings) :
    MainState F :=
  let s1 := { s with us_old := s.us_old + s.g.sampleInterval_us }
  let s2 := { s1 with g := process_eq s1.g r.inputSig, n_process_eq := s1.n_process_eq + 1 }
  let s3 := { s2 with ticks := s2.ticks + 1 }
  let s4 :=
    if s3.ticks.tmod s3.g.sampleFreq_actual = 0 then
      { s3 with
        g := { s3.g with indicator := !s3.g.indicator }
        ticks := 0
        n_toggle := s3.n_toggle + 1 }
    else s3
  if s4.ticks.tmod s4.g.controlFreq = 0 then
    { s4 with
      g := update_controls A s4.g r.controls
      n_update_controls := s4.n_update_controls + 1 }
  else s4

/-- Lines 75-89: one pass of the `while (true)` loop. -/
def loop_iter {F : FilterImpl} (A : Float32) (s : MainState F) (r : Readings) :
    MainState F :=
  let s0 := { s with us := r.us }
  if s0.us - s0.us_old ≥ s0.g.sampleInterval_us then sample_period A s0 r else s0

/-- The loop run for a sequence of passes. -/
def run {F : FilterImpl} (A : Float32) (s : MainState F) (rs : List Readings) :
    MainState F :=
  rs.foldl (loop_iter A) s

/-! ## Specification-side vocabulary -/

/-- The level a switch has after an edge: high after a rise, low after a fall. -/
def Edge.level : Edge → Int
  | Edge.lowRise => 1
  | Edge.lowFall => 0
  | Edge.highRise => 1
  | Edge.highFall => 0

/-- Whether an edge is an edge of the low-mode switch. -/
def Edge.onLow : Edge → Bool
  | Edge.lowRise => true
  | Edge.lowFall => true
  | Edge.highRise => false
  | Edge.highFall => false

/-- Whether an edge is an edge of the high-mode switch. -/
def Edge.onHigh (e : Edge) : Bool := !e.onLow

/-- The level left by the last edge of `es` on the switch selected by `p`, or
`init` when `es` has no edge on that switch. -/
def lastLevel (p : Edge → Bool) (init : Int) (es : List Edge) : Int :=
  (((es.filter p).getLast?).map Edge.level).getD init

/-- The globals left by one sample period: `process_eq` on the sample read in
this pass, then the indicator toggled when `toggle`, then `update_controls` on
the controls read in this pass when `update`; `update_controls` is applied
if and only if `update` holds, and `process_eq` exactly once. -/
def afterSample {F : FilterImpl} (A : Float32) (g : Globals F) (r : Readings)
    (toggle update : Bool) : Globals F :=
  let g1 := process_eq g r.inputSig
  let g2 := if toggle then { g1 with indicator := !g1.indicator } else g1
  if update then update_controls A g2 r.controls else g2

/-- A clock whose successive readings never go back and never jump by more than
`period`, the reading before the first one being `us0`. -/
def SteadyClock (period us0 : Int) (rs : List Readings) : Prop :=
  List.Chain (fun x y => x ≤ y ∧ y - x ≤ period) us0 (rs.map Readings.us)

/-- What holds of the loop state at every point of a run started by
`main_entry F b`, in terms of the number of samples processed so far. -/
structure Inv {F : FilterImpl} (b : Boot) (s : MainState F) : Prop where
  interval : s.g.sampleInterval_us = 20
  rate : s.g.sampleFreq_actual = 50000
  ctl : s.g.controlFreq = 10000
  ticks : s.ticks = ((s.n_process_eq % 50000 : Nat) : Int)
  toggles : s.n_toggle = s.n_process_eq / 50000
  updates : s.n_update_controls = s.n_process_eq / 10000
  boundary : s.us_old = b.us0 + 20 * (s.n_process_eq : Int)
  led : s.g.indicator = (not^[s.n_toggle]) b.indicator0

/-- Control readings with every potentiometer at zero. -/
def Controls.zero : Controls := ⟨0, 0, 0, 0, 0⟩

/-- A reading taken when the clock shows `us`, silent input, controls at zero. -/
def Readings.at (us : Int) : Readings := ⟨us, 0, Controls.zero⟩

/-- The readings of `n` passes, `us` being the clock before the first: a pass
every 20 microseconds exactly, a silent input, all controls at zero. -/
def tickReadings (us : Int) : Nat → List Readings
  | 0 => []
  | n + 1 => Readings.at (us + 20) :: tickReadings (us + 20) n

/-- A start of the program: both switches low, clock at 0, both outputs low. -/
def Boot.zero : Boot := ⟨0, 0, 0, 0, false⟩

/-- Control readings used as a concrete input, all of them single-precision
values: low-cutoff pot at 1/128, high-cutoff pot at 1/4096, gains 1/4 (low),
3/4 (high) and 1/2 (mid). -/
def Controls.sample : Controls := ⟨1 / 128, 1 / 4096, 1 / 4, 3 / 4, 1 / 2⟩

/-! ## Basic facts -/

theorem toInt_of_nonneg {q : ℚ} (h : 0 ≤ q) : toInt q = ⌊q⌋ := by
  simp [toInt, h]

theorem toInt_sample_period : toInt (1000000 / 48000) = 20 := by
  rw [toInt_of_nonneg (by norm_num), Int.floor_eq_iff]
  norm_num

theorem scale_eq (inp in_min in_max out_min out_max : ℚ) :
    scale inp in_min in_max out_min out_max
      = (inp - in_min) / (in_max - in_min) * (out_max - out_min) + out_min := rfl

theorem scale_unit (inp out_min out_max : ℚ) :
    scale inp 0 1 out_min out_max = inp * (out_max - out_min) + out_min := by
  simp [scale_eq]

theorem fireAll_snoc {F : FilterImpl} (g : Globals F) (es : List Edge) (e : Edge) :
    fireAll g (es ++ [e]) = fire (fireAll g es) e := by
  simp [fireAll, List.foldl_append]

theorem fire_filters {F : FilterImpl} (g : Globals F) (e : Edge) :
    (fire g e).hpFilt = g.hpFilt ∧ (fire g e).lpFilt = g.lpFilt
      ∧ (fire g e).bpFilt = g.bpFilt := by
  cases e <;> exact ⟨rfl, rfl, rfl⟩

theorem fireAll_filters {F : FilterImpl} (g : Globals F) (es : List Edge) :
    (fireAll g es).hpFilt = g.hpFilt ∧ (fireAll g es).lpFilt = g.lpFilt
      ∧ (fireAll g es).bpFilt = g.bpFilt := by
  induction es using List.reverseRecOn with
  | nil => exact ⟨rfl, rfl, rfl⟩
  | append_singleton es e ih =>
    rw [fireAll_snoc]
    obtain ⟨h1, h2, h3⟩ := fire_filters (fireAll g es) e
    exact ⟨h1.trans ih.1, h2.trans ih.2.1, h3.trans ih.2.2⟩

theorem fireAll_low {F : FilterImpl} (g : Globals F) (es : List Edge) :
    (fireAll g es).g_lowModeFlag = lastLevel Edge.onLow g.g_lowModeFlag es := by
  induction es using List.reverseRecOn with
  | nil => rfl
  | append_singleton es e ih =>
    rw [fireAll_snoc]
    cases e <;>
      simp [fire, lowMode_isr_rise, lowMode_isr_fall, highMode_isr_rise, highMode_isr_fall,
        ih, lastLevel, List.filter_append, Edge.onLow, Edge.level]

theorem fireAll_high {F : FilterImpl} (g : Globals F) (es : List Edge) :
    (fireAll g es).g_highModeFlag = lastLevel Edge.onHigh g.g_highModeFlag es := by
  induction es using List.reverseRecOn with
  | nil => rfl
  | append_singleton es e ih =>
    rw [fireAll_snoc]
    cases e <;>
      simp [fire, lowMode_isr_rise, lowMode_isr_fall, highMode_isr_rise, highMode_isr_fall,
        ih, lastLevel, List.filter_append, Edge.onLow, Edge.onHigh, Edge.level]

theorem process_eq_outputSig {F : FilterImpl} (g : Globals F) (r : ℚ) :
    (process_eq g r).outputSig
      = (F.hp_update g.hpFilt (r - OFFSET)).1 * g.g_highModeFlag
        + (F.lp_update g.lpFilt (r - OFFSET)).1 * g.g_lowModeFlag
        + (F.bp_update g.bpFilt (r - OFFSET)).1 + OFFSET := rfl

/-! ## Claims on `scale` -/

/-- C2: for `in_min ≠ in_max`, `scale` sends `in_min` to `out_min` and `in_max`
to `out_max`. -/
theorem scale_endpoints (in_min in_max out_min out_max : ℚ) (h : in_min ≠ in_max) :
    scale in_min in_min in_max out_min out_max = out_min
      ∧ scale in_max in_min in_max out_min out_max = out_max := by
  have hd : in_max - in_min ≠ 0 := sub_ne_zero.mpr (Ne.symm h)
  constructor
  · simp [scale_eq]
  · rw [scale_eq, div_self hd]
    ring

theorem scale_endpoints_witness :
    (0 : ℚ) ≠ 1 ∧ scale 0 0 1 LOW_FREQ_MIN LOW_FREQ_MAX = LOW_FREQ_MIN
      ∧ scale 1 0 1 LOW_FREQ_MIN LOW_FREQ_MAX = LOW_FREQ_MAX :=
  ⟨by norm_num, scale_endpoints 0 1 LOW_FREQ_MIN LOW_FREQ_MAX (by norm_num)⟩

/-- C3: for `in_min ≠ in_max`, `scale` is affine in its first argument on all
inputs (it commutes with every affine combination, inside or outside the input
range, so nothing is clamped); for `in_min < in_max` and `out_min ≤ out_max` it
is monotone non-decreasing; and `scale(1/2, 0, 1, 20, 300) = 160`,
`scale(2, 0, 1, 20, 300) = 580`. -/
theorem scale_affine_monotone (in_min in_max out_min out_max : ℚ) (h : in_min ≠ in_max) :
    (∀ a b t : ℚ,
        scale (t * a + (1 - t) * b) in_min in_max out_min out_max
          = t * scale a in_min in_max out_min out_max
            + (1 - t) * scale b in_min in_max out_min out_max)
      ∧ (in_min < in_max → out_min ≤ out_max → ∀ a b : ℚ, a ≤ b →
          scale a in_min in_max out_min out_max ≤ scale b in_min in_max out_min out_max)
      ∧ scale (1 / 2) 0 1 20 300 = 160
      ∧ scale 2 0 1 20 300 = 580 := by
  have hd : in_max - in_min ≠ 0 := sub_ne_zero.mpr (Ne.symm h)
  refine ⟨?_, ?_, ?_, ?_⟩
  · intro a b t
    simp only [scale_eq]
    field_simp
    ring
  · intro hlt hout a b hab
    have hpos : 0 < in_max - in_min := sub_pos.mpr hlt
    have hw : 0 ≤ out_max - out_min := sub_nonneg.mpr hout
    simp only [scale_eq]
    have : (a - in_min) / (in_max - in_min) ≤ (b - in_min) / (in_max - in_min) :=
      div_le_div_of_nonneg_right (by linarith) hpos.le
    nlinarith [mul_le_mul_of_nonneg_right this hw]
  · rw [scale_unit]
    norm_num
  · rw [scale_unit]
    norm_num

theorem scale_affine_monotone_witness :
    (0 : ℚ) ≠ 1
      ∧ scale ((1 / 2) * 0 + (1 - 1 / 2) * 1) 0 1 20 300
          = (1 / 2) * scale 0 0 1 20 300 + (1 - 1 / 2) * scale 1 0 1 20 300
      ∧ scale (1 / 2) 0 1 20 300 ≤ scale 2 0 1 20 300 :=
  ⟨by norm_num,
    (scale_affine_monotone 0 1 20 300 (by norm_num)).1 0 1 (1 / 2),
    (scale_affine_monotone 0 1 20 300 (by norm_num)).2.1 (by norm_num) (by norm_num)
      (1 / 2) 2 (by norm_num)⟩

/-! ## Claims on `process_eq` and the mode flags -/

/-- C1: one call of `process_eq` on the raw sample `r` advances each of the three
filters by exactly one `update` on the same value `r - OFFSET`, and writes
`hp * high + lp * low + bp + OFFSET`, where `hp`, `lp`, `bp` are the three
values returned; with both flags 0 this is `bp + OFFSET`, with both flags 1 it is
`hp + lp + bp + OFFSET`. -/
theorem process_eq_blend (F : FilterImpl) (g : Globals F) (r : ℚ) :
    (process_eq g r).input = r - OFFSET
      ∧ (process_eq g r).hpFilt = (F.hp_update g.hpFilt (r - OFFSET)).2
      ∧ (process_eq g r).lpFilt = (F.lp_update g.lpFilt (r - OFFSET)).2
      ∧ (process_eq g r).bpFilt = (F.bp_update g.bpFilt (r - OFFSET)).2
      ∧ (process_eq g r).outputSig
          = (F.hp_update g.hpFilt (r - OFFSET)).1 * g.g_highModeFlag
            + (F.lp_update g.lpFilt (r - OFFSET)).1 * g.g_lowModeFlag
            + (F.bp_update g.bpFilt (r - OFFSET)).1 + OFFSET
      ∧ (process_eq { g with g_lowModeFlag := 0, g_highModeFlag := 0 } r).outputSig
          = (F.bp_update g.bpFilt (r - OFFSET)).1 + OFFSET
      ∧ (process_eq { g with g_lowModeFlag := 1, g_highModeFlag := 1 } r).outputSig
          = (F.hp_update g.hpFilt (r - OFFSET)).1
            + (F.lp_update g.lpFilt (r - OFFSET)).1
            + (F.bp_update g.bpFilt (r - OFFSET)).1 + OFFSET := by
  refine ⟨rfl, rfl, rfl, rfl, rfl, ?_, ?_⟩ <;> simp [process_eq]

/-- C5: each of the four handlers sets its own flag to the level of its edge
(1 on a rise, 0 on a fall) and leaves the other flag unchanged; so after any
sequence of edges each flag holds the level of the last edge on its own switch
(its previous value when there was none), and these are the multipliers of the
next `process_eq`. -/
theorem edge_handlers_flags (F : FilterImpl) (g : Globals F) (es : List Edge) (r : ℚ) :
    ((lowMode_isr_rise g).g_lowModeFlag = 1
        ∧ (lowMode_isr_rise g).g_highModeFlag = g.g_highModeFlag)
      ∧ ((lowMode_isr_fall g).g_lowModeFlag = 0
        ∧ (lowMode_isr_fall g).g_highModeFlag = g.g_highModeFlag)
      ∧ ((highMode_isr_rise g).g_highModeFlag = 1
        ∧ (highMode_isr_rise g).g_lowModeFlag = g.g_lowModeFlag)
      ∧ ((highMode_isr_fall g).g_highModeFlag = 0
        ∧ (highMode_isr_fall g).g_lowModeFlag = g.g_lowModeFlag)
      ∧ (fireAll g es).g_lowModeFlag = lastLevel Edge.onLow g.g_lowModeFlag es
      ∧ (fireAll g es).g_highModeFlag = lastLevel Edge.onHigh g.g_highModeFlag es
      ∧ (process_eq (fireAll g es) r).outputSig
          = (F.hp_update g.hpFilt (r - OFFSET)).1 * lastLevel Edge.onHigh g.g_highModeFlag es
            + (F.lp_update g.lpFilt (r - OFFSET)).1 * lastLevel Edge.onLow g.g_lowModeFlag es
            + (F.bp_update g.bpFilt (r - OFFSET)).1 + OFFSET := by
  refine ⟨⟨rfl, rfl⟩, ⟨rfl, rfl⟩, ⟨rfl, rfl⟩, ⟨rfl, rfl⟩, fireAll_low g es, fireAll_high g es, ?_⟩
  obtain ⟨h1, h2, h3⟩ := fireAll_filters g es
  rw [(process_eq_outputSig (fireAll g es) r), h1, h2, h3, fireAll_low, fireAll_high]

/-! ## The sample loop: helper lemmas -/

theorem startup_interval (F : FilterImpl) (b : Boot) :
    (startup F b).sampleInterval_us = 20 := by
  show toInt (1000000 / 48000) = 20
  exact toInt_sample_period

theorem startup_rate (F : FilterImpl) (b : Boot) :
    (startup F b).sampleFreq_actual = 50000 := by
  show Int.tdiv 1000000 (toInt (1000000 / 48000)) = 50000
  rw [toInt_sample_period]
  rfl

theorem process_eq_frame {F : FilterImpl} (g : Globals F) (r : ℚ) :
    (process_eq g r).sampleInterval_us = g.sampleInterval_us
      ∧ (process_eq g r).sampleFreq_actual = g.sampleFreq_actual
      ∧ (process_eq g r).controlFreq = g.controlFreq
      ∧ (process_eq g r).indicator = g.indicator := ⟨rfl, rfl, rfl, rfl⟩

theorem update_controls_frame {F : FilterImpl} {A : Float32} (g : Globals F) (c : Controls) :
    (update_controls A g c).sampleInterval_us = g.sampleInterval_us
      ∧ (update_controls A g c).sampleFreq_actual = g.sampleFreq_actual
      ∧ (update_controls A g c).controlFreq = g.controlFreq
      ∧ (update_controls A g c).indicator = g.indicator := ⟨rfl, rfl, rfl, rfl⟩

theorem sample_period_us_old {F : FilterImpl} (A : Float32) (s : MainState F) (r : Readings) :
    (sample_period A s r).us_old = s.us_old + s.g.sampleInterval_us
      ∧ (sample_period A s r).n_process_eq = s.n_process_eq + 1
      ∧ (sample_period A s r).us = s.us := by
  simp only [sample_period]
  split_ifs <;> exact ⟨rfl, rfl, rfl⟩

theorem sample_period_frame {F : FilterImpl} (A : Float32) (s : MainState F) (r : Readings) :
    (sample_period A s r).g.sampleInterval_us = s.g.sampleInterval_us
      ∧ (sample_period A s r).g.sampleFreq_actual = s.g.sampleFreq_actual
      ∧ (sample_period A s r).g.controlFreq = s.g.controlFreq := by
  simp only [sample_period]
  split_ifs <;> exact ⟨rfl, rfl, rfl⟩

theorem loop_iter_hit {F : FilterImpl} (A : Float32) (s : MainState F) (r : Readings)
    (h : r.us - s.us_old ≥ s.g.sampleInterval_us) :
    loop_iter A s r = sample_period A { s with us := r.us } r := by
  simp only [loop_iter]
  rw [if_pos h]

theorem loop_iter_miss {F : FilterImpl} (A : Float32) (s : MainState F) (r : Readings)
    (h : ¬ r.us - s.us_old ≥ s.g.sampleInterval_us) :
    loop_iter A s r = { s with us := r.us } := by
  simp only [loop_iter]
  rw [if_neg h]

theorem run_snoc {F : FilterImpl} (A : Float32) (s : MainState F) (rs : List Readings) (r : Readings) :
    run A s (rs ++ [r]) = loop_iter A (run A s rs) r := by
  simp [run, List.foldl_append]

theorem run_cons {F : FilterImpl} (A : Float32) (s : MainState F) (r : Readings) (rs : List Readings) :
    run A s (r :: rs) = run A (loop_iter A s r) rs := rfl

theorem sample_period_spec {F : FilterImpl} (A : Float32) (s : MainState F) (r : Readings)
    (hr : s.g.sampleFreq_actual = 50000) (hc : s.g.controlFreq = 10000)
    (ht0 : 0 ≤ s.ticks) (ht1 : s.ticks < 50000) :
    (sample_period A s r).ticks = (s.ticks + 1) % 50000
      ∧ (sample_period A s r).n_toggle
          = s.n_toggle + (if (s.ticks + 1) % 50000 = 0 then 1 else 0)
      ∧ (sample_period A s r).g.indicator
          = (if (s.ticks + 1) % 50000 = 0 then !s.g.indicator else s.g.indicator)
      ∧ (sample_period A s r).n_update_controls
          = s.n_update_controls + (if (s.ticks + 1) % 10000 = 0 then 1 else 0) := by
  have e1 : (s.ticks + 1).tmod 50000 = (s.ticks + 1) % 50000 :=
    Int.tmod_eq_emod (by omega) (by norm_num)
  have e2 : (s.ticks + 1).tmod 10000 = (s.ticks + 1) % 10000 :=
    Int.tmod_eq_emod (by omega) (by norm_num)
  have e3 : (0 : Int).tmod 10000 = 0 := rfl
  by_cases h : (s.ticks + 1) % 50000 = 0
  · have h2 : (s.ticks + 1) % 10000 = 0 := by omega
    simp [sample_period, process_eq, update_controls, hr, hc, e1, e3, h, h2]
  · have h3 : (s.ticks + 1) % 50000 = s.ticks + 1 := by omega
    have h4 : ¬ (s.ticks + 1 = 0) := by omega
    by_cases h2 : (s.ticks + 1) % 10000 = 0
    · simp [sample_period, process_eq, update_controls, hr, hc, e1, e2, h2, h3, h4]
    · simp [sample_period, process_eq, update_controls, hr, hc, e1, e2, h2, h3, h4]

theorem inv_main_entry (F : FilterImpl) (b : Boot) : Inv b (main_entry F b) where
  interval := startup_interval F b
  rate := startup_rate F b
  ctl := rfl
  ticks := rfl
  toggles := by simp [main_entry]
  updates := by simp [main_entry]
  boundary := by simp [main_entry]
  led := rfl

theorem inv_set_us {F : FilterImpl} {b : Boot} {s : MainState F} (h : Inv b s) (u : Int) :
    Inv b { s with us := u } :=
  ⟨h.interval, h.rate, h.ctl, h.ticks, h.toggles, h.updates, h.boundary, h.led⟩

theorem inv_sample_period {F : FilterImpl} (A : Float32) {b : Boot} {s : MainState F} (h : Inv b s)
    (r : Readings) : Inv b (sample_period A s r) := by
  have ht := h.ticks
  obtain ⟨k1, k2, k3, k4⟩ :=
    sample_period_spec A s r h.rate h.ctl (by omega) (by omega)
  obtain ⟨f1, f2, f3⟩ := sample_period_frame A s r
  obtain ⟨u1, u2, _⟩ := sample_period_us_old A s r
  have hi := h.interval
  have hb := h.boundary
  have hg := h.toggles
  have hu := h.updates
  refine ⟨f1.trans h.interval, f2.trans h.rate, f3.trans h.ctl, ?_, ?_, ?_, ?_, ?_⟩
  · rw [k1, u2]
    omega
  · rw [k2, u2]
    split_ifs <;> omega
  · rw [k4, u2]
    split_ifs <;> omega
  · rw [u1, u2]
    push_cast
    omega
  · rw [k3, k2, h.led]
    split_ifs
    · rw [Function.iterate_succ_apply']
    · rfl

theorem inv_loop_iter {F : FilterImpl} (A : Float32) {b : Boot} {s : MainState F} (h : Inv b s)
    (r : Readings) : Inv b (loop_iter A s r) := by
  by_cases hc : r.us - s.us_old ≥ s.g.sampleInterval_us
  · rw [loop_iter_hit A s r hc]
    exact inv_sample_period A (inv_set_us h r.us) r
  · rw [loop_iter_miss A s r hc]
    exact inv_set_us h r.us

theorem inv_run {F : FilterImpl} (A : Float32) {b : Boot} (rs : List Readings) :
    ∀ {s : MainState F}, Inv b s → Inv b (run A s rs) := by
  induction rs with
  | nil => intro s h; exact h
  | cons r rs ih => intro s h; exact ih (inv_loop_iter A h r)

/-- One pass processes no sample or exactly one; it processes one exactly when a
whole period has elapsed since the boundary. -/
theorem loop_iter_count {F : FilterImpl} (A : Float32) (s : MainState F) (r : Readings) :
    (r.us - s.us_old ≥ s.g.sampleInterval_us
        ∧ (loop_iter A s r).n_process_eq = s.n_process_eq + 1)
      ∨ (¬ r.us - s.us_old ≥ s.g.sampleInterval_us
        ∧ (loop_iter A s r).n_process_eq = s.n_process_eq) := by
  by_cases hc : r.us - s.us_old ≥ s.g.sampleInterval_us
  · left
    rw [loop_iter_hit A s r hc]
    exact ⟨hc, (sample_period_us_old A _ r).2.1⟩
  · right
    rw [loop_iter_miss A s r hc]
    exact ⟨hc, rfl⟩

theorem loop_iter_us {F : FilterImpl} (A : Float32) (s : MainState F) (r : Readings) :
    (loop_iter A s r).us = r.us := by
  by_cases hc : r.us - s.us_old ≥ s.g.sampleInterval_us
  · rw [loop_iter_hit A s r hc]
    exact (sample_period_us_old A _ r).2.2
  · rw [loop_iter_miss A s r hc]

/-- Under a steady clock the boundary never lags the clock by a whole period. -/
theorem steady_run {F : FilterImpl} {A : Float32} {b : Boot} (rs : List Readings) :
    ∀ {s : MainState F}, Inv b s → s.us_old ≤ s.us → s.us - s.us_old < 20 →
      SteadyClock 20 s.us rs →
      (run A s rs).us_old ≤ (run A s rs).us ∧ (run A s rs).us - (run A s rs).us_old < 20 := by
  induction rs with
  | nil => intro s _ h1 h2 _; exact ⟨h1, h2⟩
  | cons r rs ih =>
    intro s h h1 h2 hc
    simp only [SteadyClock, List.map_cons, List.chain_cons] at hc
    obtain ⟨⟨c1, c2⟩, hrest⟩ := hc
    rw [run_cons]
    have hus := loop_iter_us A s r
    have hi := h.interval
    apply ih (inv_loop_iter A h r)
    · rcases loop_iter_count A s r with ⟨hc, _⟩ | ⟨hc, _⟩
      · rw [loop_iter_hit A s r hc, (sample_period_us_old A _ r).1, (sample_period_us_old A _ r).2.2]
        simp only [ge_iff_le] at hc ⊢
        omega
      · rw [loop_iter_miss A s r hc]
        simp only
        omega
    · rcases loop_iter_count A s r with ⟨hc, _⟩ | ⟨hc, _⟩
      · rw [loop_iter_hit A s r hc, (sample_period_us_old A _ r).1, (sample_period_us_old A _ r).2.2]
        simp only [ge_iff_le] at hc ⊢
        omega
      · rw [loop_iter_miss A s r hc]
        simp only [ge_iff_le] at hc ⊢
        omega
    · rw [hus]
      exact hrest

/-- A backlog is worked off one sample a pass: when every reading of `qs` is at
least `m` periods past the boundary and `qs` has at most `m` readings, every
pass of `qs` processes a sample. -/
theorem run_backlog {F : FilterImpl} (A : Float32) (qs : List Readings) :
    ∀ (s : MainState F) (m : Nat), qs.length ≤ m → 0 ≤ s.g.sampleInterval_us →
      (∀ q ∈ qs, q.us - s.us_old ≥ m * s.g.sampleInterval_us) →
      (run A s qs).n_process_eq = s.n_process_eq + qs.length
        ∧ (run A s qs).us_old = s.us_old + qs.length * s.g.sampleInterval_us := by
  induction qs with
  | nil => intro s m _ _ _; simp [run]
  | cons q qs ih =>
    intro s m hm hI hq
    simp only [List.length_cons] at hm
    obtain ⟨m, rfl⟩ : ∃ k, m = k + 1 := ⟨m - 1, by omega⟩
    have hm0 : 0 ≤ (m : Int) * s.g.sampleInterval_us := mul_nonneg (by omega) hI
    have h1 := hq q (List.mem_cons_self q qs)
    have hexp : ((m + 1 : Nat) : Int) * s.g.sampleInterval_us
        = (m : Int) * s.g.sampleInterval_us + s.g.sampleInterval_us := by
      push_cast
      ring
    rw [hexp] at h1
    have hit : q.us - s.us_old ≥ s.g.sampleInterval_us := by
      simp only [ge_iff_le] at h1 ⊢
      omega
    have hstep := loop_iter_hit A s q hit
    obtain ⟨u1, u2, _⟩ := sample_period_us_old A { s with us := q.us } q
    obtain ⟨f1, _, _⟩ := sample_period_frame A { s with us := q.us } q
    rw [← hstep] at u1 u2 f1
    simp only at u1 u2 f1
    have := ih (loop_iter A s q) m (by omega) (by rw [f1]; exact hI) (by
      intro q2 hq2
      have h2 := hq q2 (List.mem_cons_of_mem q hq2)
      rw [hexp] at h2
      rw [u1, f1]
      simp only [ge_iff_le] at h2 ⊢
      omega)
    rw [run_cons, this.1, this.2, u1, u2, f1]
    refine ⟨by simp only [List.length_cons]; omega, ?_⟩
    simp only [List.length_cons]
    push_cast
    ring

theorem steady_tickReadings (n : Nat) :
    ∀ us : Int, SteadyClock 20 us (tickReadings us n) := by
  induction n with
  | zero => intro us; exact List.Chain.nil
  | succ n ih =>
    intro us
    refine List.Chain.cons ⟨?_, ?_⟩ (ih (us + 20))
    · show us ≤ us + 20
      omega
    · show us + 20 - us ≤ 20
      omega

theorem tickReadings_snoc (n : Nat) :
    ∀ us : Int, tickReadings us (n + 1)
      = tickReadings us n ++ [Readings.at (us + 20 * ((n : Int) + 1))] := by
  induction n with
  | zero => intro us; simp [tickReadings]
  | succ n ih =>
    intro us
    rw [tickReadings, ih (us + 20)]
    simp only [tickReadings, List.cons_append, Nat.cast_add, Nat.cast_one]
    have e : us + 20 + 20 * ((n : Int) + 1) = us + 20 * ((n : Int) + 1 + 1) := by omega
    rw [e]

theorem loop_iter_late {F : FilterImpl} (A : Float32) (s : MainState F) (r : Readings)
    (h : r.us - s.us_old ≥ s.g.sampleInterval_us) :
    (loop_iter A s r).n_process_eq = s.n_process_eq + 1 := by
  rw [loop_iter_hit A s r h]
  exact (sample_period_us_old A _ r).2.1

/-- A run of `n` passes that all read a clock at least `n` periods past the
start processes `n` samples. -/
theorem run_replicate_late (F : FilterImpl) (A : Float32) (b : Boot) (r : Readings) (n : Nat)
    (h : r.us - b.us0 ≥ (n : Int) * 20) :
    (run A (main_entry F b) (List.replicate n r)).n_process_eq = n
      ∧ (run A (main_entry F b) (List.replicate n r)).us_old = b.us0 + (n : Int) * 20
      ∧ (run A (main_entry F b) (List.replicate n r)).g.sampleInterval_us = 20 := by
  have hi := (inv_main_entry F b).interval
  have := run_backlog A (List.replicate n r) (main_entry F b) n (by simp)
    (by rw [hi]; norm_num)
    (fun q hq => by
      rw [List.eq_of_mem_replicate hq, hi]
      exact h)
  rw [List.length_replicate, hi] at this
  refine ⟨?_, this.2, (inv_run A _ (inv_main_entry F b)).interval⟩
  rw [this.1]
  simp [main_entry]

theorem rnd_int (A : Float32) (k : Int) (h0 : 0 ≤ k) (hk : k ≤ 2 ^ 24) :
    A.rnd (k : ℚ) = k := by
  have h := A.exact k 0 (by omega) hk (by norm_num)
  simpa using h

theorem rnd_between (A : Float32) (k : Int) (x : ℚ) (h0 : 0 ≤ k) (hk : k + 1 ≤ 2 ^ 24)
    (h1 : (k : ℚ) ≤ x) (h2 : x ≤ (k : ℚ) + 1) :
    (k : ℚ) ≤ A.rnd x ∧ A.rnd x ≤ (k : ℚ) + 1 := by
  have e1 := rnd_int A k h0 (by omega)
  have e2 := rnd_int A (k + 1) (by omega) hk
  push_cast at e2
  constructor
  · calc (k : ℚ) = A.rnd k := e1.symm
      _ ≤ A.rnd x := A.mono _ _ h1
  · calc A.rnd x ≤ A.rnd ((k : ℚ) + 1) := A.mono _ _ h2
      _ = (k : ℚ) + 1 := e2

theorem floor_between (k : Int) (v : ℚ) (h1 : (k : ℚ) ≤ v) (h2 : v ≤ (k : ℚ) + 1) :
    ⌊v⌋ = k ∨ ⌊v⌋ = k + 1 := by
  rcases eq_or_lt_of_le h2 with h | h
  · right
    rw [h]
    have : ((k : ℚ) + 1) = ((k + 1 : Int) : ℚ) := by push_cast; rfl
    rw [this, Int.floor_intCast]
  · left
    rw [Int.floor_eq_iff]
    exact ⟨h1, h⟩

/-- The single-precision value of `scale(a, 0, 1, L, H)` for a reading `a` in
`[0, 1]` and whole bounds `0 ≤ L ≤ H < 2^24` lies between the whole part of the
exact value and that whole part plus one, and in `[L, H]`. -/
theorem scale_f32_between (A : Float32) (a : ℚ) (L H : Int) (hL : 0 ≤ L) (hLH : L ≤ H)
    (hH : H + 1 ≤ 2 ^ 24) (ha0 : 0 ≤ a) (ha1 : a ≤ 1) (haf : A.rnd a = a) :
    ((⌊scale a 0 1 L H⌋ : Int) : ℚ) ≤ scale_f32 A a 0 1 L H
      ∧ scale_f32 A a 0 1 L H ≤ ((⌊scale a 0 1 L H⌋ : Int) : ℚ) + 1
      ∧ scale_f32 A a 0 1 L H ≤ H
      ∧ L ≤ ⌊scale a 0 1 L H⌋ := by
  have hw0 : (0 : ℚ) ≤ (H : ℚ) - L := by
    have : (L : ℚ) ≤ H := by exact_mod_cast hLH
    linarith
  have hx1 : (L : ℚ) ≤ scale a 0 1 L H := by
    rw [scale_unit]
    nlinarith [mul_nonneg ha0 hw0]
  have hx2 : scale a 0 1 L H ≤ (H : ℚ) := by
    rw [scale_unit]
    nlinarith [mul_le_mul_of_nonneg_right ha1 hw0]
  have hk1 : L ≤ ⌊scale a 0 1 (L : ℚ) H⌋ := Int.le_floor.mpr hx1
  have hk2 : ⌊scale a 0 1 (L : ℚ) H⌋ ≤ H := by
    have : ((⌊scale a 0 1 (L : ℚ) H⌋ : Int) : ℚ) ≤ (H : ℚ) := le_trans (Int.floor_le _) hx2
    exact_mod_cast this
  have e1 : A.rnd 1 = 1 := by
    have := rnd_int A 1 (by norm_num) (by norm_num)
    simpa using this
  have eH : A.rnd (H : ℚ) = H := rnd_int A H (by omega) (by omega)
  have ew : A.rnd ((H : ℚ) - L) = (H : ℚ) - L := by
    have := rnd_int A (H - L) (by omega) (by omega)
    push_cast at this
    exact this
  have ep : A.rnd (A.rnd (a - 0) / A.rnd (1 - 0)) = a := by
    rw [sub_zero, sub_zero, haf, e1, div_one, haf]
  have hfl := Int.floor_le (scale a 0 1 (L : ℚ) H)
  have hfu := Int.lt_floor_add_one (scale a 0 1 (L : ℚ) H)
  by_cases hf : A.fma = true
  · have ev : scale_f32 A a 0 1 L H = A.rnd (scale a 0 1 L H) := by
      simp only [scale_f32, hf, if_true, ep, ew, scale_unit]
    rw [ev]
    obtain ⟨b1, b2⟩ := rnd_between A ⌊scale a 0 1 (L : ℚ) H⌋ (scale a 0 1 L H)
      (by omega) (by omega) hfl hfu.le
    refine ⟨b1, b2, ?_, hk1⟩
    calc A.rnd (scale a 0 1 L H) ≤ A.rnd (H : ℚ) := A.mono _ _ hx2
      _ = H := eH
  · have ev : scale_f32 A a 0 1 L H = A.rnd (A.rnd (a * ((H : ℚ) - L)) + L) := by
      simp only [scale_f32, hf, ep, ew]
      rfl
    have hy0 : (0 : ℚ) ≤ a * ((H : ℚ) - L) := mul_nonneg ha0 hw0
    have hy1 : a * ((H : ℚ) - L) ≤ (H : ℚ) - L := by
      nlinarith [mul_le_mul_of_nonneg_right ha1 hw0]
    have hj0 : 0 ≤ ⌊a * ((H : ℚ) - L)⌋ := Int.floor_nonneg.mpr hy0
    have hj1 : ⌊a * ((H : ℚ) - L)⌋ ≤ H - L := by
      have : ((⌊a * ((H : ℚ) - L)⌋ : Int) : ℚ) ≤ ((H - L : Int) : ℚ) := by
        push_cast
        exact le_trans (Int.floor_le _) hy1
      exact_mod_cast this
    have hfloor : ⌊scale a 0 1 (L : ℚ) H⌋ = ⌊a * ((H : ℚ) - L)⌋ + L := by
      rw [scale_unit, Int.floor_add_int]
    obtain ⟨m1, m2⟩ := rnd_between A ⌊a * ((H : ℚ) - L)⌋ (a * ((H : ℚ) - L))
      hj0 (by omega) (Int.floor_le _) (Int.lt_floor_add_one _).le
    have m3 : A.rnd (a * ((H : ℚ) - L)) ≤ (H : ℚ) - L := by
      calc A.rnd (a * ((H : ℚ) - L)) ≤ A.rnd ((H : ℚ) - L) := A.mono _ _ hy1
        _ = (H : ℚ) - L := ew
    obtain ⟨b1, b2⟩ := rnd_between A (⌊a * ((H : ℚ) - L)⌋ + L)
      (A.rnd (a * ((H : ℚ) - L)) + L) (by omega) (by omega)
      (by push_cast; linarith) (by push_cast; linarith)
    rw [ev, hfloor]
    refine ⟨b1, b2, ?_, by omega⟩
    calc A.rnd (A.rnd (a * ((H : ℚ) - L)) + L) ≤ A.rnd (H : ℚ) :=
          A.mono _ _ (by linarith)
      _ = H := eH

/-- The cutoff `update_controls` applies: the single-precision value of `scale`
truncated; it is a whole number of `[L, H]`, and is the whole part of the exact
mapped value or one more. -/
theorem toInt_scale_f32 (A : Float32) (a : ℚ) (L H : Int) (hL : 0 ≤ L) (hLH : L ≤ H)
    (hH : H + 1 ≤ 2 ^ 24) (ha0 : 0 ≤ a) (ha1 : a ≤ 1) (haf : A.rnd a = a) :
    toInt (scale_f32 A a 0 1 L H) = ⌊scale_f32 A a 0 1 L H⌋
      ∧ L ≤ toInt (scale_f32 A a 0 1 L H)
      ∧ toInt (scale_f32 A a 0 1 L H) ≤ H
      ∧ (toInt (scale_f32 A a 0 1 L H) = ⌊scale a 0 1 L H⌋
        ∨ toInt (scale_f32 A a 0 1 L H) = ⌊scale a 0 1 L H⌋ + 1) := by
  obtain ⟨b1, b2, b3, b4⟩ := scale_f32_between A a L H hL hLH hH ha0 ha1 haf
  have hk0 : (0 : ℚ) ≤ ((⌊scale a 0 1 (L : ℚ) H⌋ : Int) : ℚ) := by
    have : (0 : Int) ≤ ⌊scale a 0 1 (L : ℚ) H⌋ := by omega
    exact_mod_cast this
  have e : toInt (scale_f32 A a 0 1 L H) = ⌊scale_f32 A a 0 1 L H⌋ :=
    toInt_of_nonneg (le_trans hk0 b1)
  have hcase := floor_between _ _ b1 b2
  have hup : ⌊scale_f32 A a 0 1 L H⌋ ≤ H := by
    have : ((⌊scale_f32 A a 0 1 L H⌋ : Int) : ℚ) ≤ (H : ℚ) := le_trans (Int.floor_le _) b3
    exact_mod_cast this
  rw [e]
  refine ⟨rfl, ?_, hup, hcase⟩
  rcases hcase with h | h <;> omega

/-! ## What a pass does to the globals -/

/-- A sample period applies `process_eq` once, whatever the state. -/
theorem sample_period_globals_any {F : FilterImpl} (A : Float32) (s : MainState F)
    (r : Readings) :
    ∃ t u : Bool, (sample_period A s r).g = afterSample A s.g r t u := by
  simp only [sample_period]
  split_ifs
  · exact ⟨true, true, rfl⟩
  · exact ⟨true, false, rfl⟩
  · exact ⟨false, true, rfl⟩
  · exact ⟨false, false, rfl⟩

theorem sample_period_globals {F : FilterImpl} (A : Float32) (s : MainState F) (r : Readings)
    (hr : s.g.sampleFreq_actual = 50000) (hc : s.g.controlFreq = 10000)
    (ht0 : 0 ≤ s.ticks) (ht1 : s.ticks < 50000) :
    (sample_period A s r).g
      = afterSample A s.g r (decide ((s.ticks + 1) % 50000 = 0))
          (decide ((s.ticks + 1) % 10000 = 0)) := by
  have e1 : (s.ticks + 1).tmod 50000 = (s.ticks + 1) % 50000 :=
    Int.tmod_eq_emod (by omega) (by norm_num)
  have e2 : (s.ticks + 1).tmod 10000 = (s.ticks + 1) % 10000 :=
    Int.tmod_eq_emod (by omega) (by norm_num)
  have e3 : (0 : Int).tmod 10000 = 0 := rfl
  have hr2 : (process_eq s.g r.inputSig).sampleFreq_actual = 50000 := hr
  have hc2 : (process_eq s.g r.inputSig).controlFreq = 10000 := hc
  by_cases h : (s.ticks + 1) % 50000 = 0
  · have h2 : (s.ticks + 1) % 10000 = 0 := by omega
    simp [sample_period, afterSample, hr2, hc2, e1, e3, h, h2]
  · have h3 : (s.ticks + 1) % 50000 = s.ticks + 1 := by omega
    have h4 : ¬ (s.ticks + 1 = 0) := by omega
    by_cases h2 : (s.ticks + 1) % 10000 = 0
    · simp [sample_period, afterSample, hr2, hc2, e1, e2, h2, h3, h4]
    · simp [sample_period, afterSample, hr2, hc2, e1, e2, h2, h3, h4]

/-- Along a run from the start of `main`, the pass that processes sample number
`n + 1` leaves the globals of `afterSample`, toggling if and only if
`50000 ∣ n + 1` and updating the controls if and only if `10000 ∣ n + 1`. -/
theorem loop_iter_globals {F : FilterImpl} (A : Float32) {b : Boot} {s : MainState F}
    (h : Inv b s) (r : Readings) (hit : r.us - s.us_old ≥ s.g.sampleInterval_us) :
    (loop_iter A s r).g
      = afterSample A s.g r (decide (50000 ∣ s.n_process_eq + 1))
          (decide (10000 ∣ s.n_process_eq + 1)) := by
  have ht := h.ticks
  rw [loop_iter_hit A s r hit,
    sample_period_globals A { s with us := r.us } r h.rate h.ctl (by simp only; omega)
      (by simp only; omega)]
  have d1 : ((s.ticks + 1) % 50000 = 0) ↔ (50000 ∣ s.n_process_eq + 1) := by omega
  have d2 : ((s.ticks + 1) % 10000 = 0) ↔ (10000 ∣ s.n_process_eq + 1) := by omega
  simp only [d1, d2]

/-- A pass that processes no sample leaves the globals as they were; a pass that
processes one applies `process_eq` once. -/
theorem loop_iter_tie {F : FilterImpl} (A : Float32) (s : MainState F) (r : Readings) :
    ((loop_iter A s r).n_process_eq = s.n_process_eq ∧ (loop_iter A s r).g = s.g)
      ∨ ((loop_iter A s r).n_process_eq = s.n_process_eq + 1
        ∧ ∃ t u : Bool, (loop_iter A s r).g = afterSample A s.g r t u) := by
  by_cases hc : r.us - s.us_old ≥ s.g.sampleInterval_us
  · right
    rw [loop_iter_hit A s r hc]
    exact ⟨(sample_period_us_old A _ r).2.1, sample_period_globals_any A _ r⟩
  · left
    rw [loop_iter_miss A s r hc]
    exact ⟨rfl, rfl⟩

/-- On the recording filters a sample period feeds each filter one sample. -/
theorem afterSample_fed (A : Float32) (g : Globals recFilters) (r : Readings) (t u : Bool) :
    (RecFilter.fed (afterSample A g r t u).lpFilt).length
        = (RecFilter.fed g.lpFilt).length + 1
      ∧ (RecFilter.fed (afterSample A g r t u).hpFilt).length
        = (RecFilter.fed g.hpFilt).length + 1
      ∧ (RecBand.fed (afterSample A g r t u).bpFilt).length
        = (RecBand.fed g.bpFilt).length + 1 := by
  cases t <;> cases u <;>
    simp [afterSample, process_eq, update_controls, recFilters]

/-- On the recording filters the number of samples fed to each filter is the
number of passes that processed a sample. -/
theorem run_fed (A : Float32) (b : Boot) (rs : List Readings) :
    (RecFilter.fed (run A (main_entry recFilters b) rs).g.lpFilt).length
        = (run A (main_entry recFilters b) rs).n_process_eq
      ∧ (RecFilter.fed (run A (main_entry recFilters b) rs).g.hpFilt).length
        = (run A (main_entry recFilters b) rs).n_process_eq
      ∧ (RecBand.fed (run A (main_entry recFilters b) rs).g.bpFilt).length
        = (run A (main_entry recFilters b) rs).n_process_eq := by
  induction rs using List.reverseRecOn with
  | nil => exact ⟨rfl, rfl, rfl⟩
  | append_singleton rs r ih =>
    rw [run_snoc]
    rcases loop_iter_tie A (run A (main_entry recFilters b) rs) r with ⟨hn, hg⟩ | ⟨hn, t, u, hg⟩
    · rw [hn, hg]
      exact ih
    · obtain ⟨f1, f2, f3⟩ := afterSample_fed A (run A (main_entry recFilters b) rs).g r t u
      rw [hn, hg, f1, f2, f3, ih.1, ih.2.1, ih.2.2]
      exact ⟨rfl, rfl, rfl⟩

/-! ## Claims on the sample loop -/

/-- Under a steady clock of period 20 the samples processed when the clock
reads `us0 + T * 1000000` number `50000 * T`. -/
theorem phase_exact (F : FilterImpl) (A : Float32) (b : Boot) (rs : List Readings)
    (r : Readings) (T : Nat) (hclock : SteadyClock 20 b.us0 (rs ++ [r]))
    (hT : r.us = b.us0 + (T : Int) * 1000000) :
    (run A (main_entry F b) (rs ++ [r])).n_process_eq = 50000 * T := by
  have h0 := inv_main_entry F b
  have hI := inv_run A (rs ++ [r]) h0
  obtain ⟨c1, c2⟩ := steady_run (rs ++ [r]) h0 (le_refl _) (by simp [main_entry]) hclock
  have hb := hI.boundary
  have hus : (run A (main_entry F b) (rs ++ [r])).us = r.us := by
    rw [run_snoc]
    exact loop_iter_us A _ r
  rw [hus, hT, hb] at c1 c2
  omega

/-- C4: from the start of `main`, under a clock whose successive readings never
go back and never jump by more than one sample period, the number of calls of
`process_eq` made when the clock reads `us0 + T * 1000000` differs from
`T * sampleFreq_actual = 50000 * T` by at most one, both before and after the
pass that takes this reading (after it, the two are equal).  The number of calls
is the counter `n_process_eq`: it is 0 at the start; in every run a pass either
leaves it and the globals unchanged, or adds one to it and leaves the globals of
one application of `process_eq` to the sample read in that pass (followed at
most by the indicator toggle and `update_controls`); and filters that record
their input have each been fed exactly `50000 * T` samples. -/
theorem scheduler_phase_stability (F : FilterImpl) (A : Float32) (b : Boot)
    (rs : List Readings) (r : Readings) (T : Nat)
    (hclock : SteadyClock (main_entry F b).g.sampleInterval_us b.us0 (rs ++ [r]))
    (hT : r.us = b.us0 + (T : Int) * 1000000) :
    (main_entry F b).g.sampleFreq_actual = 50000
      ∧ (main_entry F b).n_process_eq = 0
      ∧ (∀ (ps : List Readings) (q : Readings),
          ((loop_iter A (run A (main_entry F b) ps) q).n_process_eq
                = (run A (main_entry F b) ps).n_process_eq
              ∧ (loop_iter A (run A (main_entry F b) ps) q).g
                = (run A (main_entry F b) ps).g)
            ∨ ((loop_iter A (run A (main_entry F b) ps) q).n_process_eq
                = (run A (main_entry F b) ps).n_process_eq + 1
              ∧ ∃ t u : Bool, (loop_iter A (run A (main_entry F b) ps) q).g
                = afterSample A (run A (main_entry F b) ps).g q t u))
      ∧ ((run A (main_entry F b) rs).n_process_eq ≤ 50000 * T + 1
        ∧ 50000 * T ≤ (run A (main_entry F b) rs).n_process_eq + 1)
      ∧ ((run A (main_entry F b) (rs ++ [r])).n_process_eq ≤ 50000 * T + 1
        ∧ 50000 * T ≤ (run A (main_entry F b) (rs ++ [r])).n_process_eq + 1)
      ∧ (run A (main_entry F b) (rs ++ [r])).n_process_eq = 50000 * T
      ∧ ((RecFilter.fed (run A (main_entry recFilters b) (rs ++ [r])).g.lpFilt).length
            = 50000 * T
          ∧ (RecFilter.fed (run A (main_entry recFilters b) (rs ++ [r])).g.hpFilt).length
            = 50000 * T
          ∧ (RecBand.fed (run A (main_entry recFilters b) (rs ++ [r])).g.bpFilt).length
            = 50000 * T) := by
  have h0 := inv_main_entry F b
  rw [h0.interval] at hclock
  have hexact := phase_exact F A b rs r T hclock hT
  have hrec := phase_exact recFilters A b rs r T hclock hT
  obtain ⟨f1, f2, f3⟩ := run_fed A b (rs ++ [r])
  have hstep := loop_iter_count A (run A (main_entry F b) rs) r
  rw [← run_snoc] at hstep
  refine ⟨h0.rate, rfl, fun ps q => loop_iter_tie A _ q, ?_, ?_, hexact,
    by rw [f1, hrec], by rw [f2, hrec], by rw [f3, hrec]⟩
  · rcases hstep with ⟨_, h⟩ | ⟨_, h⟩ <;> omega
  · omega

/-- No pass assigns the sample period. -/
theorem run_interval {F : FilterImpl} (A : Float32) (rs : List Readings) :
    ∀ s : MainState F, (run A s rs).g.sampleInterval_us = s.g.sampleInterval_us := by
  induction rs with
  | nil => intro s; rfl
  | cons r rs ih =>
    intro s
    rw [run_cons, ih]
    by_cases hc : r.us - s.us_old ≥ s.g.sampleInterval_us
    · rw [loop_iter_hit A s r hc]
      exact (sample_period_frame A _ r).1
    · rw [loop_iter_miss A s r hc]

/-- C9: a pass whose reading is at least one period past the boundary moves the
boundary `us_old` by exactly one period and applies `process_eq` once, to the
sample read in that pass (the globals it leaves are those of `afterSample`); any
other pass changes nothing but the local `us`.  Hence along every run from the
start of `main` the boundary is `us0 + sampleInterval_us * (calls of
process_eq)`, and a backlog of `k` periods is worked off by the next `k` passes,
one sample each: each of these passes applies `process_eq` once. -/
theorem boundary_advance (F : FilterImpl) (A : Float32) (s : MainState F) (r : Readings) :
    (r.us - s.us_old ≥ s.g.sampleInterval_us →
        (loop_iter A s r).us_old = s.us_old + s.g.sampleInterval_us
          ∧ (loop_iter A s r).n_process_eq = s.n_process_eq + 1
          ∧ (∃ t u : Bool, (loop_iter A s r).g = afterSample A s.g r t u)
          ∧ (loop_iter A s r).g.input = r.inputSig - OFFSET
          ∧ (loop_iter A s r).g.outputSig = (process_eq s.g r.inputSig).outputSig)
      ∧ (¬ r.us - s.us_old ≥ s.g.sampleInterval_us →
        loop_iter A s r = { s with us := r.us }
          ∧ (loop_iter A s r).us_old = s.us_old
          ∧ (loop_iter A s r).ticks = s.ticks
          ∧ (loop_iter A s r).g = s.g
          ∧ (loop_iter A s r).g.indicator = s.g.indicator
          ∧ (loop_iter A s r).n_process_eq = s.n_process_eq
          ∧ (loop_iter A s r).n_toggle = s.n_toggle
          ∧ (loop_iter A s r).n_update_controls = s.n_update_controls)
      ∧ (∀ (b : Boot) (rs : List Readings),
          (run A (main_entry F b) rs).g.sampleInterval_us
              = (main_entry F b).g.sampleInterval_us
            ∧ (run A (main_entry F b) rs).us_old
              = b.us0 + (main_entry F b).g.sampleInterval_us
                  * ((run A (main_entry F b) rs).n_process_eq : Int))
      ∧ (∀ (k : Nat) (qs : List Readings), qs.length = k → 0 ≤ s.g.sampleInterval_us →
          (∀ q ∈ qs, q.us - s.us_old ≥ (k : Int) * s.g.sampleInterval_us) →
          (∀ j ≤ k, (run A s (qs.take j)).n_process_eq = s.n_process_eq + j
            ∧ (run A s (qs.take j)).us_old = s.us_old + (j : Int) * s.g.sampleInterval_us)
          ∧ (∀ (j : Nat) (q : Readings), qs[j]? = some q →
              run A s (qs.take (j + 1)) = loop_iter A (run A s (qs.take j)) q
                ∧ (run A s (qs.take (j + 1))).n_process_eq
                  = (run A s (qs.take j)).n_process_eq + 1
                ∧ ∃ t u : Bool, (run A s (qs.take (j + 1))).g
                  = afterSample A (run A s (qs.take j)).g q t u)) := by
  have hback : ∀ (k : Nat) (qs : List Readings), qs.length = k → 0 ≤ s.g.sampleInterval_us →
      (∀ q ∈ qs, q.us - s.us_old ≥ (k : Int) * s.g.sampleInterval_us) →
      ∀ j ≤ k, (run A s (qs.take j)).n_process_eq = s.n_process_eq + j
        ∧ (run A s (qs.take j)).us_old = s.us_old + (j : Int) * s.g.sampleInterval_us := by
    intro k qs hk hI hq j hj
    have hlen : (qs.take j).length = j := by
      rw [List.length_take]
      omega
    have := run_backlog A (qs.take j) s k (by omega) hI
      (fun q hq2 => hq q (List.mem_of_mem_take hq2))
    rw [hlen] at this
    exact this
  refine ⟨?_, ?_, ?_, ?_⟩
  · intro h
    rw [loop_iter_hit A s r h]
    obtain ⟨t, u, htu⟩ := sample_period_globals_any A { s with us := r.us } r
    refine ⟨(sample_period_us_old A _ r).1, (sample_period_us_old A _ r).2.1,
      ⟨t, u, htu⟩, ?_, ?_⟩
    · rw [htu]
      cases t <;> cases u <;> rfl
    · rw [htu]
      cases t <;> cases u <;> rfl
  · intro h
    rw [loop_iter_miss A s r h]
    exact ⟨rfl, rfl, rfl, rfl, rfl, rfl, rfl, rfl⟩
  · intro b rs
    have hI := inv_run A rs (inv_main_entry F b)
    rw [hI.interval, (inv_main_entry F b).interval]
    exact ⟨rfl, hI.boundary⟩
  · intro k qs hk hI hq
    refine ⟨hback k qs hk hI hq, ?_⟩
    intro j q hjq
    have hjlt : j < qs.length := by
      rcases Nat.lt_or_ge j qs.length with h | h
      · exact h
      · rw [List.getElem?_eq_none h] at hjq
        cases hjq
    have htake : qs.take (j + 1) = qs.take j ++ [q] := by
      rw [List.take_succ, hjq]
      rfl
    have hmem : q ∈ qs := List.getElem?_mem hjq
    obtain ⟨_, hold⟩ := hback k qs hk hI hq j (by omega)
    have hint := run_interval A (qs.take j) s
    have hq2 := hq q hmem
    have hd : (0 : Int) ≤ ((k : Int) - j - 1) * s.g.sampleInterval_us :=
      mul_nonneg (by omega) hI
    have hexp : ((k : Int) - j - 1) * s.g.sampleInterval_us
        = (k : Int) * s.g.sampleInterval_us - (j : Int) * s.g.sampleInterval_us
          - s.g.sampleInterval_us := by ring
    have hit : q.us - (run A s (qs.take j)).us_old
        ≥ (run A s (qs.take j)).g.sampleInterval_us := by
      rw [hold, hint]
      simp only [ge_iff_le] at hq2 ⊢
      linarith
    rw [htake, run_snoc]
    refine ⟨rfl, loop_iter_late A _ q hit, ?_⟩
    rw [loop_iter_hit A _ q hit]
    exact sample_period_globals_any A _ q

/-- C6: along every run from the start of `main` (where `ticks = 0`), the number
of indicator toggles is the number of processed samples divided by
`sampleFreq_actual = 50000`, rounded down, and the indicator is its initial level
flipped that many times; the pass that processes the `n`-th sample toggles the
indicator if and only if `50000 ∣ n`, in which case it leaves `ticks = 0`; a pass
that processes no sample toggles nothing. -/
theorem indicator_toggling (F : FilterImpl) (A : Float32) (b : Boot) (rs : List Readings) (r : Readings) :
    (main_entry F b).ticks = 0
      ∧ (main_entry F b).g.sampleFreq_actual = 50000
      ∧ (run A (main_entry F b) rs).n_toggle = (run A (main_entry F b) rs).n_process_eq / 50000
      ∧ (run A (main_entry F b) rs).g.indicator
          = (not^[(run A (main_entry F b) rs).n_process_eq / 50000]) b.indicator0
      ∧ ((loop_iter A (run A (main_entry F b) rs) r).n_process_eq
            = (run A (main_entry F b) rs).n_process_eq + 1 →
          ((loop_iter A (run A (main_entry F b) rs) r).n_toggle
                = (run A (main_entry F b) rs).n_toggle + 1
              ↔ 50000 ∣ (loop_iter A (run A (main_entry F b) rs) r).n_process_eq)
            ∧ ((loop_iter A (run A (main_entry F b) rs) r).g.indicator
                = (!(run A (main_entry F b) rs).g.indicator)
              ↔ 50000 ∣ (loop_iter A (run A (main_entry F b) rs) r).n_process_eq)
            ∧ (¬ 50000 ∣ (loop_iter A (run A (main_entry F b) rs) r).n_process_eq →
              (loop_iter A (run A (main_entry F b) rs) r).n_toggle
                  = (run A (main_entry F b) rs).n_toggle
                ∧ (loop_iter A (run A (main_entry F b) rs) r).g.indicator
                  = (run A (main_entry F b) rs).g.indicator)
            ∧ (50000 ∣ (loop_iter A (run A (main_entry F b) rs) r).n_process_eq →
              (loop_iter A (run A (main_entry F b) rs) r).ticks = 0))
      ∧ ((loop_iter A (run A (main_entry F b) rs) r).n_process_eq
            = (run A (main_entry F b) rs).n_process_eq →
          (loop_iter A (run A (main_entry F b) rs) r).n_toggle
              = (run A (main_entry F b) rs).n_toggle
            ∧ (loop_iter A (run A (main_entry F b) rs) r).g.indicator
              = (run A (main_entry F b) rs).g.indicator) := by
  have hI := inv_run A rs (inv_main_entry F b)
  have hJ := inv_loop_iter A hI r
  generalize run A (main_entry F b) rs = s at hI hJ ⊢
  generalize loop_iter A s r = s2 at hJ ⊢
  have t1 := hI.toggles
  have t2 := hJ.toggles
  have l1 := hI.led
  have l2 := hJ.led
  have k2 := hJ.ticks
  refine ⟨rfl, (inv_main_entry F b).rate, t1, by rw [l1, t1], ?_, ?_⟩
  · intro hn
    have hflip : s2.n_toggle = s.n_toggle + 1 → s2.g.indicator = !s.g.indicator := by
      intro e
      rw [l2, l1, e, Function.iterate_succ_apply']
    have hkeep : s2.n_toggle = s.n_toggle → s2.g.indicator = s.g.indicator := by
      intro e
      rw [l2, l1, e]
    have hcase : (50000 ∣ s2.n_process_eq ∧ s2.n_toggle = s.n_toggle + 1)
        ∨ (¬ 50000 ∣ s2.n_process_eq ∧ s2.n_toggle = s.n_toggle) := by omega
    rcases hcase with ⟨hd, ht⟩ | ⟨hd, ht⟩
    · refine ⟨⟨fun _ => hd, fun _ => ht⟩, ⟨fun _ => hd, fun _ => hflip ht⟩,
        fun hnd => absurd hd hnd, fun _ => ?_⟩
      omega
    · refine ⟨⟨fun e => by omega, fun h => absurd h hd⟩, ⟨fun e => ?_, fun h => absurd h hd⟩,
        fun _ => ⟨ht, hkeep ht⟩, fun h => absurd h hd⟩
      rw [hkeep ht] at e
      cases hs : s.g.indicator <;> rw [hs] at e <;> cases e
  · intro hn
    have ht : s2.n_toggle = s.n_toggle := by omega
    exact ⟨ht, by rw [l2, l1, ht]⟩

/-- C10: along every run from the start of `main` (where `ticks = 0`), with the
single tick counter reset every `sampleFreq_actual = 50000` samples, the pass
that processes the `n`-th sample applies `update_controls` (to the globals left
by `process_eq` and the toggle, with the controls read in that pass) if and only
if `controlFreq = 10000` divides `n`: when it does, the three filters are those
`update_controls` leaves; when it does not, they are those `process_eq` leaves.
No pass applies it more than once, and a pass that processes no sample leaves
the globals unchanged; so the number of calls is the number of processed samples
divided by 10000, rounded down. -/
theorem control_update_schedule (F : FilterImpl) (A : Float32) (b : Boot)
    (rs : List Readings) (r : Readings) :
    (main_entry F b).ticks = 0
      ∧ (main_entry F b).g.controlFreq = 10000
      ∧ (main_entry F b).g.sampleFreq_actual = 50000
      ∧ (run A (main_entry F b) rs).n_update_controls
          = (run A (main_entry F b) rs).n_process_eq / 10000
      ∧ ((loop_iter A (run A (main_entry F b) rs) r).n_process_eq
            = (run A (main_entry F b) rs).n_process_eq + 1 →
          ((loop_iter A (run A (main_entry F b) rs) r).n_update_controls
                = (run A (main_entry F b) rs).n_update_controls + 1
              ↔ 10000 ∣ (loop_iter A (run A (main_entry F b) rs) r).n_process_eq)
            ∧ (¬ 10000 ∣ (loop_iter A (run A (main_entry F b) rs) r).n_process_eq →
              (loop_iter A (run A (main_entry F b) rs) r).n_update_controls
                = (run A (main_entry F b) rs).n_update_controls)
            ∧ (loop_iter A (run A (main_entry F b) rs) r).g
              = afterSample A (run A (main_entry F b) rs).g r
                  (decide (50000 ∣ (loop_iter A (run A (main_entry F b) rs) r).n_process_eq))
                  (decide (10000 ∣ (loop_iter A (run A (main_entry F b) rs) r).n_process_eq))
            ∧ (10000 ∣ (loop_iter A (run A (main_entry F b) rs) r).n_process_eq →
              (loop_iter A (run A (main_entry F b) rs) r).g.lpFilt
                  = (update_controls A
                      (process_eq (run A (main_entry F b) rs).g r.inputSig) r.controls).lpFilt
                ∧ (loop_iter A (run A (main_entry F b) rs) r).g.hpFilt
                  = (update_controls A
                      (process_eq (run A (main_entry F b) rs).g r.inputSig) r.controls).hpFilt
                ∧ (loop_iter A (run A (main_entry F b) rs) r).g.bpFilt
                  = (update_controls A
                      (process_eq (run A (main_entry F b) rs).g r.inputSig) r.controls).bpFilt)
            ∧ (¬ 10000 ∣ (loop_iter A (run A (main_entry F b) rs) r).n_process_eq →
              (loop_iter A (run A (main_entry F b) rs) r).g
                  = process_eq (run A (main_entry F b) rs).g r.inputSig))
      ∧ ((loop_iter A (run A (main_entry F b) rs) r).n_process_eq
            = (run A (main_entry F b) rs).n_process_eq →
          (loop_iter A (run A (main_entry F b) rs) r).n_update_controls
              = (run A (main_entry F b) rs).n_update_controls
            ∧ (loop_iter A (run A (main_entry F b) rs) r).g
              = (run A (main_entry F b) rs).g)
      ∧ ((loop_iter A (run A (main_entry F b) rs) r).n_update_controls
            = (run A (main_entry F b) rs).n_update_controls
          ∨ (loop_iter A (run A (main_entry F b) rs) r).n_update_controls
            = (run A (main_entry F b) rs).n_update_controls + 1) := by
  have hI := inv_run A rs (inv_main_entry F b)
  have hJ := inv_loop_iter A hI r
  have hc := loop_iter_count A (run A (main_entry F b) rs) r
  have hg := loop_iter_globals A hI r
  have hm := loop_iter_miss A (run A (main_entry F b) rs) r
  generalize run A (main_entry F b) rs = s at hI hJ hc hg hm ⊢
  have t1 := hI.updates
  have t2 := hJ.updates
  refine ⟨rfl, rfl, (inv_main_entry F b).rate, t1, ?_, ?_, ?_⟩
  · intro hn
    have hit : r.us - s.us_old ≥ s.g.sampleInterval_us := by
      rcases hc with ⟨h, _⟩ | ⟨_, h⟩
      · exact h
      · omega
    have hg2 := hg hit
    rw [← hn] at hg2
    refine ⟨?_, ?_, hg2, ?_, ?_⟩
    · constructor <;> intro h <;> omega
    · intro h
      omega
    · intro hd
      rw [hg2]
      simp only [afterSample, hd, decide_True, if_true]
      split_ifs <;> exact ⟨rfl, rfl, rfl⟩
    · intro hd
      have hd5 : ¬ 50000 ∣ (loop_iter A s r).n_process_eq := by omega
      rw [hg2]
      simp [afterSample, hd, hd5]
  · intro hn
    have hmiss : ¬ r.us - s.us_old ≥ s.g.sampleInterval_us := by
      rcases hc with ⟨_, h⟩ | ⟨h, _⟩
      · omega
      · exact h
    refine ⟨by omega, ?_⟩
    rw [hm hmiss]
  · rcases hc with ⟨_, h⟩ | ⟨_, h⟩ <;> omega

/-! ## Claims on the control path and on the sample period -/

/-- C7 (as the code has it): `update_controls` stores the `float` that each call
of `scale` returns in an `int` before applying it.  So for single-precision
readings `a`, `b` in `[0, 1]` the low-pass cutoff becomes a whole number, the
value `scale(a, 0, 1, LOW_FREQ_MIN, LOW_FREQ_MAX)` computed in single precision
and truncated; it lies in `[LOW_FREQ_MIN, LOW_FREQ_MAX]` and is the whole part of
the exact mapped value, or one more when rounding carries the computed value up
to the next whole number.  Likewise for the high-pass cutoff and `b`; the
band-pass cutoffs are that same pair of whole numbers, and the low-pass,
high-pass and band-pass gains are the raw readings.  Stated for every
single-precision arithmetic, fused or not, for every filter implementation (each
filter receives one `set_gain`, then one `set_cutoff`) and for filters that
record what was last applied. -/
theorem update_controls_applies (A : Float32) (c : Controls)
    (ha0 : 0 ≤ c.lowFrequency_in) (ha1 : c.lowFrequency_in ≤ 1)
    (hb0 : 0 ≤ c.highFrequency_in) (hb1 : c.highFrequency_in ≤ 1)
    (haf : A.rnd c.lowFrequency_in = c.lowFrequency_in)
    (hbf : A.rnd c.highFrequency_in = c.highFrequency_in) :
    (∀ (F : FilterImpl) (g : Globals F),
        (update_controls A g c).lpFilt
            = F.lp_set_cutoff (F.lp_set_gain g.lpFilt c.lowAmplitude_in)
                (toInt (scale_f32 A c.lowFrequency_in 0 1 LOW_FREQ_MIN LOW_FREQ_MAX))
          ∧ (update_controls A g c).hpFilt
            = F.hp_set_cutoff (F.hp_set_gain g.hpFilt c.highAmplitude_in)
                (toInt (scale_f32 A c.highFrequency_in 0 1 HIGH_FREQ_MIN HIGH_FREQ_MAX))
          ∧ (update_controls A g c).bpFilt
            = F.bp_set_cutoff (F.bp_set_gain g.bpFilt c.midAmplitude_in)
                (toInt (scale_f32 A c.lowFrequency_in 0 1 LOW_FREQ_MIN LOW_FREQ_MAX))
                (toInt (scale_f32 A c.highFrequency_in 0 1 HIGH_FREQ_MIN HIGH_FREQ_MAX)))
      ∧ (∀ g : Globals recFilters,
        RecFilter.cutoff (update_controls A g c).lpFilt
            = some ((toInt (scale_f32 A c.lowFrequency_in 0 1 LOW_FREQ_MIN LOW_FREQ_MAX)
                : Int) : ℚ)
          ∧ RecFilter.cutoff (update_controls A g c).hpFilt
            = some ((toInt (scale_f32 A c.highFrequency_in 0 1 HIGH_FREQ_MIN HIGH_FREQ_MAX)
                : Int) : ℚ)
          ∧ RecBand.cutoff (update_controls A g c).bpFilt
            = some (((toInt (scale_f32 A c.lowFrequency_in 0 1 LOW_FREQ_MIN LOW_FREQ_MAX)
                  : Int) : ℚ),
                ((toInt (scale_f32 A c.highFrequency_in 0 1 HIGH_FREQ_MIN HIGH_FREQ_MAX)
                  : Int) : ℚ))
          ∧ RecFilter.gain (update_controls A g c).lpFilt = some c.lowAmplitude_in
          ∧ RecFilter.gain (update_controls A g c).hpFilt = some c.highAmplitude_in
          ∧ RecBand.gain (update_controls A g c).bpFilt = some c.midAmplitude_in)
      ∧ (toInt (scale_f32 A c.lowFrequency_in 0 1 LOW_FREQ_MIN LOW_FREQ_MAX)
            = ⌊scale_f32 A c.lowFrequency_in 0 1 LOW_FREQ_MIN LOW_FREQ_MAX⌋
          ∧ LOW_FREQ_MIN
            ≤ (toInt (scale_f32 A c.lowFrequency_in 0 1 LOW_FREQ_MIN LOW_FREQ_MAX) : ℚ)
          ∧ (toInt (scale_f32 A c.lowFrequency_in 0 1 LOW_FREQ_MIN LOW_FREQ_MAX) : ℚ)
            ≤ LOW_FREQ_MAX
          ∧ (toInt (scale_f32 A c.lowFrequency_in 0 1 LOW_FREQ_MIN LOW_FREQ_MAX)
              = ⌊scale c.lowFrequency_in 0 1 LOW_FREQ_MIN LOW_FREQ_MAX⌋
            ∨ toInt (scale_f32 A c.lowFrequency_in 0 1 LOW_FREQ_MIN LOW_FREQ_MAX)
              = ⌊scale c.lowFrequency_in 0 1 LOW_FREQ_MIN LOW_FREQ_MAX⌋ + 1))
      ∧ (toInt (scale_f32 A c.highFrequency_in 0 1 HIGH_FREQ_MIN HIGH_FREQ_MAX)
            = ⌊scale_f32 A c.highFrequency_in 0 1 HIGH_FREQ_MIN HIGH_FREQ_MAX⌋
          ∧ HIGH_FREQ_MIN
            ≤ (toInt (scale_f32 A c.highFrequency_in 0 1 HIGH_FREQ_MIN HIGH_FREQ_MAX) : ℚ)
          ∧ (toInt (scale_f32 A c.highFrequency_in 0 1 HIGH_FREQ_MIN HIGH_FREQ_MAX) : ℚ)
            ≤ HIGH_FREQ_MAX
          ∧ (toInt (scale_f32 A c.highFrequency_in 0 1 HIGH_FREQ_MIN HIGH_FREQ_MAX)
              = ⌊scale c.highFrequency_in 0 1 HIGH_FREQ_MIN HIGH_FREQ_MAX⌋
            ∨ toInt (scale_f32 A c.highFrequency_in 0 1 HIGH_FREQ_MIN HIGH_FREQ_MAX)
              = ⌊scale c.highFrequency_in 0 1 HIGH_FREQ_MIN HIGH_FREQ_MAX⌋ + 1)) := by
  have eL : LOW_FREQ_MIN = ((20 : Int) : ℚ) := by norm_num [LOW_FREQ_MIN]
  have eLx : LOW_FREQ_MAX = ((300 : Int) : ℚ) := by norm_num [LOW_FREQ_MAX]
  have eH : HIGH_FREQ_MIN = ((2000 : Int) : ℚ) := by norm_num [HIGH_FREQ_MIN]
  have eHx : HIGH_FREQ_MAX = ((10000 : Int) : ℚ) := by norm_num [HIGH_FREQ_MAX]
  refine ⟨fun F g => ⟨rfl, rfl, rfl⟩, fun g => ⟨rfl, rfl, rfl, rfl, rfl, rfl⟩, ?_, ?_⟩
  · obtain ⟨t1, t2, t3, t4⟩ := toInt_scale_f32 A c.lowFrequency_in 20 300 (by norm_num)
      (by norm_num) (by norm_num) ha0 ha1 haf
    rw [eL, eLx]
    exact ⟨t1, by exact_mod_cast t2, by exact_mod_cast t3, t4⟩
  · obtain ⟨t1, t2, t3, t4⟩ := toInt_scale_f32 A c.highFrequency_in 2000 10000 (by norm_num)
      (by norm_num) (by norm_num) hb0 hb1 hbf
    rw [eH, eHx]
    exact ⟨t1, by exact_mod_cast t2, by exact_mod_cast t3, t4⟩

/-- C8 (as the code has it): the sample period is `1000000 / sampleFreq` with its
fractional part dropped; for `sampleFreq = 48000` it is 20 microseconds, the
largest whole number not above `1000000 / 48000`; and no function of the
program assigns it: `process_eq`, `update_controls`, the four handlers, one pass
of the loop and every run of the loop leave it as it was. -/
theorem sampleInterval_truncated (F : FilterImpl) (A : Float32) (b : Boot) :
    (startup F b).sampleFreq = 48000
      ∧ (startup F b).sampleInterval_us = toInt (1000000 / (startup F b).sampleFreq)
      ∧ (startup F b).sampleInterval_us = ⌊(1000000 : ℚ) / 48000⌋
      ∧ (startup F b).sampleInterval_us = 20
      ∧ (main_entry F b).g.sampleInterval_us = 20
      ∧ (∀ (g : Globals F) (r : ℚ) (c : Controls) (e : Edge),
          (process_eq g r).sampleInterval_us = g.sampleInterval_us
            ∧ (update_controls A g c).sampleInterval_us = g.sampleInterval_us
            ∧ (fire g e).sampleInterval_us = g.sampleInterval_us)
      ∧ (∀ (s : MainState F) (r : Readings),
          (loop_iter A s r).g.sampleInterval_us = s.g.sampleInterval_us)
      ∧ (∀ rs : List Readings, (run A (main_entry F b) rs).g.sampleInterval_us = 20) := by
  refine ⟨rfl, rfl, ?_, startup_interval F b, (inv_main_entry F b).interval, ?_, ?_, ?_⟩
  · rw [startup_interval, ← toInt_sample_period]
    exact toInt_of_nonneg (by norm_num)
  · intro g r c e
    refine ⟨rfl, rfl, ?_⟩
    cases e <;> rfl
  · intro s r
    by_cases hc : r.us - s.us_old ≥ s.g.sampleInterval_us
    · rw [loop_iter_hit A s r hc]
      exact (sample_period_frame A _ r).1
    · rw [loop_iter_miss A s r hc]
  · intro rs
    exact (inv_run A rs (inv_main_entry F b)).interval

/-- The sample period does not depend on how the quotient `1000000 / 48000` is
rounded to single precision: every rounding of it truncates to 20. -/
theorem sample_period_any_rounding (A : Float32) :
    toInt (A.rnd (1000000 / 48000)) = 20 := by
  have e1 : A.rnd 20 = 20 := by
    have h := A.exact 20 0 (by norm_num) (by norm_num) (by norm_num)
    norm_num at h
    exact h
  have e2 : A.rnd (167 / 8) = 167 / 8 := by
    have h := A.exact 167 3 (by norm_num) (by norm_num) (by norm_num)
    norm_num at h ⊢
    exact h
  have l1 : (20 : ℚ) ≤ A.rnd (1000000 / 48000) := by
    calc (20 : ℚ) = A.rnd 20 := e1.symm
      _ ≤ A.rnd (1000000 / 48000) := A.mono _ _ (by norm_num)
  have l2 : A.rnd (1000000 / 48000) ≤ 167 / 8 := by
    calc A.rnd (1000000 / 48000) ≤ A.rnd (167 / 8) := A.mono _ _ (by norm_num)
      _ = 167 / 8 := e2
  rw [toInt_of_nonneg (by linarith), Int.floor_eq_iff]
  constructor
  · exact_mod_cast l1
  · have : (167 / 8 : ℚ) < ((20 : Int) : ℚ) + 1 := by norm_num
    linarith

/-- At the reading 1/128 every operation of `scale` is exact in single
precision, fused or not: the value returned is 355/16 and its truncation 22. -/
theorem toInt_scale_sample (A : Float32) :
    scale_f32 A Controls.sample.lowFrequency_in 0 1 LOW_FREQ_MIN LOW_FREQ_MAX = 355 / 16
      ∧ toInt (scale_f32 A Controls.sample.lowFrequency_in 0 1 LOW_FREQ_MIN LOW_FREQ_MAX)
        = 22 := by
  have e1 : A.rnd 1 = 1 := by
    have h := A.exact 1 0 (by norm_num) (by norm_num) (by norm_num)
    norm_num at h
    exact h
  have e2 : A.rnd (1 / 128) = 1 / 128 := by
    have h := A.exact 1 7 (by norm_num) (by norm_num) (by norm_num)
    norm_num at h ⊢
    exact h
  have e3 : A.rnd 280 = 280 := by
    have h := A.exact 280 0 (by norm_num) (by norm_num) (by norm_num)
    norm_num at h
    exact h
  have e4 : A.rnd (35 / 16) = 35 / 16 := by
    have h := A.exact 35 4 (by norm_num) (by norm_num) (by norm_num)
    norm_num at h ⊢
    exact h
  have e5 : A.rnd (355 / 16) = 355 / 16 := by
    have h := A.exact 355 4 (by norm_num) (by norm_num) (by norm_num)
    norm_num at h ⊢
    exact h
  have ev : scale_f32 A Controls.sample.lowFrequency_in 0 1 LOW_FREQ_MIN LOW_FREQ_MAX
      = 355 / 16 := by
    have p : A.rnd (A.rnd ((1 / 128 : ℚ) - 0) / A.rnd (1 - 0)) = 1 / 128 := by
      rw [sub_zero, sub_zero, e2, e1, div_one, e2]
    have w : A.rnd ((300 : ℚ) - 20) = 280 := by
      have : (300 : ℚ) - 20 = 280 := by norm_num
      rw [this, e3]
    have m1 : (1 / 128 : ℚ) * 280 = 35 / 16 := by norm_num
    have m2 : (35 / 16 : ℚ) + 20 = 355 / 16 := by norm_num
    show (if A.fma = true then
        A.rnd (A.rnd (A.rnd ((1 / 128 : ℚ) - 0) / A.rnd (1 - 0)) * A.rnd ((300 : ℚ) - 20) + 20)
      else A.rnd (A.rnd (A.rnd (A.rnd ((1 / 128 : ℚ) - 0) / A.rnd (1 - 0))
        * A.rnd ((300 : ℚ) - 20)) + 20)) = 355 / 16
    rw [p, w, m1, e4, m2, e5]
    split_ifs <;> rfl
  refine ⟨ev, ?_⟩
  rw [ev, toInt_of_nonneg (by norm_num), Int.floor_eq_iff]
  norm_num

/-- C7, counterexample: with the low-cutoff pot at the single-precision value
1/128 the mapped value is `scale(1/128, 0, 1, 20, 300) = 355/16`, but the cutoff
applied to the low-pass filter is 22, in exact arithmetic and in every
single-precision arithmetic, fused or not. -/
theorem update_controls_cutoff_not_mapped :
    ((0 : ℚ) ≤ Controls.sample.lowFrequency_in ∧ Controls.sample.lowFrequency_in ≤ 1)
      ∧ scale Controls.sample.lowFrequency_in 0 1 LOW_FREQ_MIN LOW_FREQ_MAX = 355 / 16
      ∧ RecFilter.cutoff
          (update_controls Float32.ideal (startup recFilters Boot.zero) Controls.sample).lpFilt
          = some 22
      ∧ RecFilter.cutoff
          (update_controls Float32.ideal (startup recFilters Boot.zero) Controls.sample).lpFilt
          ≠ some (scale Controls.sample.lowFrequency_in 0 1 LOW_FREQ_MIN LOW_FREQ_MAX)
      ∧ (∀ A : Float32,
          RecFilter.cutoff
              (update_controls A (startup recFilters Boot.zero) Controls.sample).lpFilt
            = some 22
          ∧ RecFilter.cutoff
              (update_controls A (startup recFilters Boot.zero) Controls.sample).lpFilt
            ≠ some (scale Controls.sample.lowFrequency_in 0 1 LOW_FREQ_MIN LOW_FREQ_MAX)) := by
  have e : scale Controls.sample.lowFrequency_in 0 1 LOW_FREQ_MIN LOW_FREQ_MAX = 355 / 16 := by
    rw [scale_unit]
    norm_num [Controls.sample, LOW_FREQ_MIN, LOW_FREQ_MAX]
  have c : ∀ A : Float32, RecFilter.cutoff
      (update_controls A (startup recFilters Boot.zero) Controls.sample).lpFilt = some 22 := by
    intro A
    show some ((toInt (scale_f32 A Controls.sample.lowFrequency_in 0 1 LOW_FREQ_MIN
      LOW_FREQ_MAX) : Int) : ℚ) = some 22
    rw [(toInt_scale_sample A).2]
    norm_num
  have n : some (22 : ℚ) ≠ some (355 / 16) := by norm_num
  refine ⟨⟨by norm_num [Controls.sample], by norm_num [Controls.sample]⟩, e,
    c Float32.ideal, ?_, fun A => ⟨c A, ?_⟩⟩
  · rw [c Float32.ideal, e]
    exact n
  · rw [c A, e]
    exact n

theorem update_controls_applies_witness :
    ((0 : ℚ) ≤ Controls.sample.lowFrequency_in ∧ Controls.sample.lowFrequency_in ≤ 1
        ∧ (0 : ℚ) ≤ Controls.sample.highFrequency_in ∧ Controls.sample.highFrequency_in ≤ 1
        ∧ Float32.ideal.rnd Controls.sample.lowFrequency_in = Controls.sample.lowFrequency_in
        ∧ Float32.ideal.rnd Controls.sample.highFrequency_in
          = Controls.sample.highFrequency_in)
      ∧ RecFilter.cutoff
          (update_controls Float32.ideal (startup recFilters Boot.zero) Controls.sample).lpFilt
          = some ((toInt (scale_f32 Float32.ideal Controls.sample.lowFrequency_in 0 1
              LOW_FREQ_MIN LOW_FREQ_MAX) : Int) : ℚ)
      ∧ RecFilter.gain
          (update_controls Float32.ideal (startup recFilters Boot.zero) Controls.sample).lpFilt
          = some Controls.sample.lowAmplitude_in
      ∧ LOW_FREQ_MIN
          ≤ (toInt (scale_f32 Float32.ideal Controls.sample.lowFrequency_in 0 1
              LOW_FREQ_MIN LOW_FREQ_MAX) : ℚ) :=
  have h1 : (0 : ℚ) ≤ Controls.sample.lowFrequency_in := by norm_num [Controls.sample]
  have h2 : Controls.sample.lowFrequency_in ≤ 1 := by norm_num [Controls.sample]
  have h3 : (0 : ℚ) ≤ Controls.sample.highFrequency_in := by norm_num [Controls.sample]
  have h4 : Controls.sample.highFrequency_in ≤ 1 := by norm_num [Controls.sample]
  ⟨⟨h1, h2, h3, h4, rfl, rfl⟩,
    ((update_controls_applies Float32.ideal Controls.sample h1 h2 h3 h4 rfl rfl).2.1
      (startup recFilters Boot.zero)).1,
    ((update_controls_applies Float32.ideal Controls.sample h1 h2 h3 h4 rfl rfl).2.1
      (startup recFilters Boot.zero)).2.2.2.1,
    (update_controls_applies Float32.ideal Controls.sample h1 h2 h3 h4 rfl rfl).2.2.1.2.1⟩

/-- C8, counterexample: the whole number of microseconds nearest to
`1000000 / 48000` is 21, but `sampleInterval_us` is 20. -/
theorem sampleInterval_not_nearest :
    (startup recFilters Boot.zero).sampleFreq = 48000
      ∧ round ((1000000 : ℚ) / 48000) = 21
      ∧ (startup recFilters Boot.zero).sampleInterval_us = 20
      ∧ (startup recFilters Boot.zero).sampleInterval_us ≠ round ((1000000 : ℚ) / 48000) := by
  have hr : round ((1000000 : ℚ) / 48000) = 21 := by
    rw [round_eq, Int.floor_eq_iff]
    norm_num
  refine ⟨rfl, hr, startup_interval _ _, ?_⟩
  rw [hr, startup_interval]
  decide

theorem scheduler_phase_stability_witness :
    SteadyClock (main_entry recFilters Boot.zero).g.sampleInterval_us Boot.zero.us0
        (tickReadings 0 49999 ++ [Readings.at 1000000])
      ∧ (Readings.at 1000000).us = Boot.zero.us0 + ((1 : Nat) : Int) * 1000000
      ∧ (run Float32.ideal (main_entry recFilters Boot.zero)
            (tickReadings 0 49999 ++ [Readings.at 1000000])).n_process_eq = 50000 * 1
      ∧ (RecBand.fed (run Float32.ideal (main_entry recFilters Boot.zero)
            (tickReadings 0 49999 ++ [Readings.at 1000000])).g.bpFilt).length = 50000 * 1 :=
  have hc : SteadyClock (main_entry recFilters Boot.zero).g.sampleInterval_us Boot.zero.us0
      (tickReadings 0 49999 ++ [Readings.at 1000000]) := by
    have h := steady_tickReadings (49999 + 1) 0
    rw [tickReadings_snoc 49999 0] at h
    rw [(inv_main_entry recFilters Boot.zero).interval]
    exact h
  have hT : (Readings.at 1000000).us = Boot.zero.us0 + ((1 : Nat) : Int) * 1000000 := rfl
  ⟨hc, hT,
    (scheduler_phase_stability recFilters Float32.ideal Boot.zero (tickReadings 0 49999)
      (Readings.at 1000000) 1 hc hT).2.2.2.2.2.1,
    (scheduler_phase_stability recFilters Float32.ideal Boot.zero (tickReadings 0 49999)
      (Readings.at 1000000) 1 hc hT).2.2.2.2.2.2.2.2⟩

theorem boundary_advance_witness :
    (Readings.at 45).us - (main_entry recFilters Boot.zero).us_old
        ≥ (main_entry recFilters Boot.zero).g.sampleInterval_us
      ∧ (loop_iter Float32.ideal (main_entry recFilters Boot.zero) (Readings.at 45)).us_old
        = (main_entry recFilters Boot.zero).us_old
          + (main_entry recFilters Boot.zero).g.sampleInterval_us
      ∧ (loop_iter Float32.ideal (main_entry recFilters Boot.zero) (Readings.at 45)).g.input
        = (Readings.at 45).inputSig - OFFSET
      ∧ (run Float32.ideal (main_entry recFilters Boot.zero)
          ([Readings.at 45, Readings.at 45].take 2)).n_process_eq
        = (main_entry recFilters Boot.zero).n_process_eq + 2
      ∧ (run Float32.ideal (main_entry recFilters Boot.zero)
          ([Readings.at 45, Readings.at 45].take (1 + 1))).n_process_eq
        = (run Float32.ideal (main_entry recFilters Boot.zero)
          ([Readings.at 45, Readings.at 45].take 1)).n_process_eq + 1 :=
  have hi := (inv_main_entry recFilters Boot.zero).interval
  have h1 : (Readings.at 45).us - (main_entry recFilters Boot.zero).us_old
      ≥ (main_entry recFilters Boot.zero).g.sampleInterval_us := by
    rw [hi]
    decide
  have h0 : 0 ≤ (main_entry recFilters Boot.zero).g.sampleInterval_us := by
    rw [hi]
    decide
  have hq : ∀ q ∈ [Readings.at 45, Readings.at 45],
      q.us - (main_entry recFilters Boot.zero).us_old
        ≥ ((2 : Nat) : Int) * (main_entry recFilters Boot.zero).g.sampleInterval_us := by
    intro q hq
    have hq2 : q = Readings.at 45 := by simpa using hq
    rw [hq2, hi]
    decide
  ⟨h1,
    ((boundary_advance recFilters Float32.ideal (main_entry recFilters Boot.zero)
      (Readings.at 45)).1 h1).1,
    ((boundary_advance recFilters Float32.ideal (main_entry recFilters Boot.zero)
      (Readings.at 45)).1 h1).2.2.2.1,
    (((boundary_advance recFilters Float32.ideal (main_entry recFilters Boot.zero)
      (Readings.at 45)).2.2.2 2 [Readings.at 45, Readings.at 45] rfl h0 hq).1
      2 (le_refl 2)).1,
    (((boundary_advance recFilters Float32.ideal (main_entry recFilters Boot.zero)
      (Readings.at 45)).2.2.2 2 [Readings.at 45, Readings.at 45] rfl h0 hq).2
      1 (Readings.at 45) rfl).2.1⟩

theorem indicator_toggling_witness :
    (loop_iter Float32.ideal (run Float32.ideal (main_entry recFilters Boot.zero)
          (List.replicate 49999 (Readings.at 1000000))) (Readings.at 1000000)).n_process_eq
        = 50000
      ∧ (loop_iter Float32.ideal (run Float32.ideal (main_entry recFilters Boot.zero)
          (List.replicate 49999 (Readings.at 1000000))) (Readings.at 1000000)).g.indicator
        = !(run Float32.ideal (main_entry recFilters Boot.zero)
          (List.replicate 49999 (Readings.at 1000000))).g.indicator := by
  obtain ⟨h1, h2, h3⟩ := run_replicate_late recFilters Float32.ideal Boot.zero
    (Readings.at 1000000) 49999 (by decide)
  have hn := loop_iter_late Float32.ideal (run Float32.ideal (main_entry recFilters Boot.zero)
      (List.replicate 49999 (Readings.at 1000000))) (Readings.at 1000000)
    (by rw [h2, h3]; decide)
  have hn2 := hn
  rw [h1] at hn2
  have hd : 50000 ∣ (loop_iter Float32.ideal (run Float32.ideal
      (main_entry recFilters Boot.zero)
      (List.replicate 49999 (Readings.at 1000000))) (Readings.at 1000000)).n_process_eq := by
    rw [hn2]
  exact ⟨hn2,
    ((indicator_toggling recFilters Float32.ideal Boot.zero
      (List.replicate 49999 (Readings.at 1000000))
      (Readings.at 1000000)).2.2.2.2.1 hn).2.1.mpr hd⟩

theorem control_update_schedule_witness :
    (loop_iter Float32.ideal (run Float32.ideal (main_entry recFilters Boot.zero)
          (List.replicate 9999 (Readings.at 1000000))) (Readings.at 1000000)).n_process_eq
        = 10000
      ∧ (loop_iter Float32.ideal (run Float32.ideal (main_entry recFilters Boot.zero)
          (List.replicate 9999 (Readings.at 1000000)))
            (Readings.at 1000000)).n_update_controls
        = (run Float32.ideal (main_entry recFilters Boot.zero)
          (List.replicate 9999 (Readings.at 1000000))).n_update_controls + 1
      ∧ (loop_iter Float32.ideal (run Float32.ideal (main_entry recFilters Boot.zero)
          (List.replicate 9999 (Readings.at 1000000))) (Readings.at 1000000)).g.lpFilt
        = (update_controls Float32.ideal
            (process_eq (run Float32.ideal (main_entry recFilters Boot.zero)
              (List.replicate 9999 (Readings.at 1000000))).g (Readings.at 1000000).inputSig)
            (Readings.at 1000000).controls).lpFilt
      ∧ RecFilter.gain (loop_iter Float32.ideal (run Float32.ideal
          (main_entry recFilters Boot.zero)
          (List.replicate 9999 (Readings.at 1000000))) (Readings.at 1000000)).g.lpFilt
        = some (Readings.at 1000000).controls.lowAmplitude_in := by
  obtain ⟨h1, h2, h3⟩ := run_replicate_late recFilters Float32.ideal Boot.zero
    (Readings.at 1000000) 9999 (by decide)
  have hn := loop_iter_late Float32.ideal (run Float32.ideal (main_entry recFilters Boot.zero)
      (List.replicate 9999 (Readings.at 1000000))) (Readings.at 1000000)
    (by rw [h2, h3]; decide)
  have hn2 := hn
  rw [h1] at hn2
  have hd : 10000 ∣ (loop_iter Float32.ideal (run Float32.ideal
      (main_entry recFilters Boot.zero)
      (List.replicate 9999 (Readings.at 1000000))) (Readings.at 1000000)).n_process_eq := by
    rw [hn2]
  have hlp := (((control_update_schedule recFilters Float32.ideal Boot.zero
      (List.replicate 9999 (Readings.at 1000000))
      (Readings.at 1000000)).2.2.2.2.1 hn).2.2.2.1 hd).1
  refine ⟨hn2,
    ((control_update_schedule recFilters Float32.ideal Boot.zero
      (List.replicate 9999 (Readings.at 1000000))
      (Readings.at 1000000)).2.2.2.2.1 hn).1.mpr hd, hlp, ?_⟩
  rw [hlp]
  rfl

end DspEq
